import Mathlib

/-!
Verification of the cinder-volume snap configuration-to-artifact pipeline.

Shallow embedding of `src/cinder_volume/{cinder_volume,configuration,context}.py`.
Python dicts are modelled as association lists (`List (String × _)`) with
first-match lookup and in-place-update insertion, matching dict semantics as
long as keys are unique (which dict construction guarantees).  The filesystem
is a finite map from relative path strings to file contents.  Jinja template
rendering is an opaque deterministic function parameter.
-/

namespace CinderVolume

/-! ## Association-list primitives (Python dict model) -/

/-- First-match lookup, the model of `d[k]` / `d.get(k)`. -/
def lookupA {α : Type} : List (String × α) → String → Option α
  | [], _ => none
  | (k, v) :: rest, key => if k = key then some v else lookupA rest key

/-- `d[k] = v`: replace the value in place when the key is present,
append otherwise (Python dict update semantics). -/
def upsert {α : Type} : List (String × α) → String → α → List (String × α)
  | [], key, v => [(key, v)]
  | (k, w) :: rest, key, v =>
    if k = key then (key, v) :: rest else (k, w) :: upsert rest key v

@[simp] theorem lookupA_nil {α : Type} (key : String) :
    lookupA ([] : List (String × α)) key = none := rfl

theorem lookupA_cons {α : Type} (k : String) (v : α) (rest : List (String × α))
    (key : String) :
    lookupA ((k, v) :: rest) key = if k = key then some v else lookupA rest key := rfl

@[simp] theorem lookupA_upsert_self {α : Type} (m : List (String × α)) (k : String) (v : α) :
    lookupA (upsert m k v) k = some v := by
  induction m with
  | nil => simp [upsert, lookupA]
  | cons hd tl ih =>
    obtain ⟨k', v'⟩ := hd
    by_cases h : k' = k
    · simp [upsert, h, lookupA]
    · simp [upsert, h, lookupA_cons, ih]

@[simp] theorem lookupA_upsert_ne {α : Type} (m : List (String × α)) (k : String) (v : α)
    (key : String) (h : k ≠ key) :
    lookupA (upsert m k v) key = lookupA m key := by
  induction m with
  | nil => simp [upsert, lookupA, h]
  | cons hd tl ih =>
    obtain ⟨k', v'⟩ := hd
    by_cases h2 : k' = k
    · subst h2
      simp [upsert, lookupA_cons, h]
    · simp [upsert, h2, lookupA_cons, ih]

/-- Keys of an association list. -/
def keysA {α : Type} (m : List (String × α)) : List String := m.map Prod.fst

@[simp] theorem keysA_nil {α : Type} : keysA ([] : List (String × α)) = [] := rfl

@[simp] theorem keysA_cons {α : Type} (k : String) (v : α) (tl : List (String × α)) :
    keysA ((k, v) :: tl) = k :: keysA tl := rfl

theorem lookupA_eq_none_of_not_mem {α : Type} (m : List (String × α)) (key : String)
    (h : key ∉ keysA m) : lookupA m key = none := by
  induction m with
  | nil => rfl
  | cons hd tl ih =>
    obtain ⟨k, v⟩ := hd
    rw [keysA_cons, List.mem_cons] at h
    push_neg at h
    simp [lookupA_cons, Ne.symm h.1, ih h.2]

theorem upsert_append_of_not_mem {α : Type} (m : List (String × α)) (k : String) (v : α)
    (h : k ∉ keysA m) : upsert m k v = m ++ [(k, v)] := by
  induction m with
  | nil => rfl
  | cons hd tl ih =>
    obtain ⟨k', v'⟩ := hd
    rw [keysA_cons, List.mem_cons] at h
    push_neg at h
    simp [upsert, Ne.symm h.1, ih h.2]

/-! ## String helpers -/

theorem string_data_append (a b : String) : (a ++ b).data = a.data ++ b.data := by
  cases a; cases b; rfl

/-- `l₁` is a prefix of `l₂` (Boolean, by character comparison). -/
def startsWithList : List Char → List Char → Bool
  | [], _ => true
  | _ :: _, [] => false
  | a :: as, b :: bs => if a = b then startsWithList as bs else false

@[simp] theorem startsWithList_nil (l : List Char) : startsWithList [] l = true := rfl

theorem startsWithList_append_self (pre rest : List Char) :
    startsWithList pre (pre ++ rest) = true := by
  induction pre with
  | nil => rfl
  | cons c cs ih => simp [startsWithList, ih]

/-- Model of Python `str.endswith` via reversed prefix comparison. -/
def endsWithStr (pat s : String) : Bool :=
  startsWithList pat.data.reverse s.data.reverse

/-- Model of Python `str.lower()`, character-wise (the protocol values this is
applied to are ASCII). -/
def toLowerStr (s : String) : String := ⟨s.data.map Char.toLower⟩

/-- Model of Python `str.startswith`. -/
def startsWithStr (pat s : String) : Bool := startsWithList pat.data s.data

/-- Model of the Python substring test `needle in hay`. -/
def containsList (n : List Char) : List Char → Bool
  | [] => n.isEmpty
  | c :: rest => startsWithList n (c :: rest) || containsList n rest

/-- `needle in hay` on strings. -/
def strContains (needle hay : String) : Bool :=
  containsList needle.data hay.data

theorem containsList_append_middle (n a b : List Char) :
    containsList n (a ++ n ++ b) = true := by
  induction a with
  | nil =>
    cases n with
    | nil => cases b <;> simp [containsList, List.isEmpty]
    | cons c cs =>
      simp only [List.nil_append, containsList, List.cons_append]
      have : startsWithList (c :: cs) ((c :: cs) ++ b) = true :=
        startsWithList_append_self _ _
      simp only [List.cons_append] at this
      simp [this]
  | cons x xs ih =>
    simp only [List.cons_append, containsList, List.append_assoc] at *
    simp [ih]

theorem strContains_append_middle (n a b : String) :
    strContains n (a ++ n ++ b) = true := by
  unfold strContains
  rw [string_data_append, string_data_append]
  exact containsList_append_middle _ _ _

/-! ## Values (Python objects appearing in configuration dicts) -/

/-- A configuration/context value: `None`, a string, a bool, an int or a
nested dict.  This is the value space of `backend_config` / render contexts. -/
inductive Val where
  | vnone : Val
  | str : String → Val
  | bool : Bool → Val
  | int : Int → Val
  | dict : List (String × Val) → Val

/-- `v is None` (used by `cinder_context`'s `if v is not None` filter). -/
def Val.isNoneV : Val → Bool
  | .vnone => true
  | _ => false

/-- Python truthiness of a value (`if context.get(k):`). -/
def Val.truthy : Val → Bool
  | .vnone => false
  | .str s => !s.isEmpty
  | .bool b => b
  | .int n => n != 0
  | .dict m => !m.isEmpty

/-- A render context / config dict. -/
abbrev Ctx := List (String × Val)

/-- `d.get(k, default)` restricted to string values; validated backend records
hold strings at the keys this is applied to (`protocol`, `target_protocol`). -/
def getStrD (m : Ctx) (key dflt : String) : String :=
  match lookupA m key with
  | some (Val.str s) => s
  | _ => dflt

/-- `k in d` (Python key membership). -/
def hasKey (m : Ctx) (key : String) : Bool := (lookupA m key).isSome

/-! ## Backend context transformers (`src/cinder_volume/context.py`) -/

/-- The backend kinds that have a registered `*BackendContext` class. -/
inductive BKind where
  | ceph | lvm | hitachi | pureK | dellsc | dellpowerstore
  deriving DecidableEq

def ETC_CINDER_D_CONF_DIR : String := "etc/cinder/cinder.conf.d"

def CINDER_CTX_KEY : String := "ctx_cinder_name"
def BACKEND_CTX_KEY : String := "ctx_backend"

/-- `BaseBackendContext._hidden_keys` plus each subclass's `_hidden_keys`,
accumulated over the class hierarchy (`hidden_keys` walks the mro, yielding
the subclass's tuple and then the base class's). -/
def hiddenKeysOf : BKind → List String
  | .ceph => ["rbd_key", "keyring", "mon_hosts", "auth", "driver_ssl_cert"]
  | .lvm => ["driver_ssl_cert"]
  | .hitachi => ["protocol", "hitachi_mirror_driver_ssl_cert", "driver_ssl_cert"]
  | .pureK => ["protocol", "driver_ssl_cert"]
  | .dellsc => ["protocol", "driver_ssl_cert"]
  | .dellpowerstore => ["protocol", "driver_ssl_cert"]

/-- `supports_cluster`, fixed per kind in each `__init__`. -/
def supportsClusterOf : BKind → Bool
  | .ceph => true
  | .lvm => false
  | .hitachi => false
  | .pureK => true
  | .dellsc => false
  | .dellpowerstore => false

/-- `BaseBackendContext.context()`: copy of the record; when `driver_ssl_cert`
is truthy, add the derived `.pem` path and `driver_ssl_cert_verify`. -/
def baseContext (backendName : String) (backendConfig : Ctx) : Ctx :=
  if ((lookupA backendConfig "driver_ssl_cert").getD Val.vnone).truthy then
    upsert
      (upsert backendConfig "driver_ssl_cert_path"
        (Val.str ("\x7b\x7b snap_paths.common \x7d\x7d/" ++ ETC_CINDER_D_CONF_DIR
          ++ "/" ++ backendName ++ ".pem")))
      "driver_ssl_cert_verify" (Val.bool true)
  else backendConfig

/-- `CephBackendContext.keyring()`. -/
def cephKeyring (backendName : String) : String :=
  "ceph.client." ++ backendName ++ ".keyring"

/-- `CephBackendContext.ceph_conf()`. -/
def cephConf (backendName : String) : String := backendName ++ ".conf"

/-- `CephBackendContext.context()`. -/
def cephContext (backendName : String) (backendConfig : Ctx) : Ctx :=
  upsert
    (upsert
      (upsert (baseContext backendName backendConfig)
        "volume_driver" (Val.str "cinder.volume.drivers.rbd.RBDDriver"))
      "rbd_ceph_conf"
      (Val.str ("\x7b\x7b snap_paths.common \x7d\x7d/etc/ceph/" ++ cephConf backendName)))
    "keyring" (Val.str (cephKeyring backendName))

/-- `LvmBackendContext.context()`, first assignment: base context plus the
LVM `volume_driver`. -/
def lvmCtx0 (backendName : String) (backendConfig : Ctx) : Ctx :=
  upsert (baseContext backendName backendConfig)
    "volume_driver" (Val.str "cinder.volume.drivers.lvm.LVMVolumeDriver")

/-- `target_helper in (None, "tgtadm")`. -/
def lvmHelperDefaulted (ctx : Ctx) : Bool :=
  match lookupA ctx "target_helper" with
  | none => true
  | some Val.vnone => true
  | some (Val.str s) => s = "tgtadm"
  | some _ => false

/-- `LvmBackendContext.context()`. -/
def lvmContext (backendName : String) (backendConfig : Ctx) : Ctx :=
  if startsWithStr "nvmet"
        (toLowerStr (getStrD (lvmCtx0 backendName backendConfig) "target_protocol" "iscsi"))
      && lvmHelperDefaulted (lvmCtx0 backendName backendConfig) then
    upsert (lvmCtx0 backendName backendConfig) "target_helper" (Val.str "nvmet")
  else lvmCtx0 backendName backendConfig

/-- `HitachiBackendContext.context()`, driver-class choice. -/
def hitachiDriverCls (backendConfig : Ctx) : String :=
  if toLowerStr (getStrD backendConfig "protocol" "FC") = "fc" then
    "cinder.volume.drivers.hitachi.hbsd_fc.HBSDFCDriver"
  else "cinder.volume.drivers.hitachi.hbsd_iscsi.HBSDISCSIDriver"

/-- Hitachi context after the `volume_driver` update. -/
def hitachiCtx1 (backendName : String) (backendConfig : Ctx) : Ctx :=
  upsert (baseContext backendName backendConfig)
    "volume_driver" (Val.str (hitachiDriverCls backendConfig))

/-- Hitachi context after the `use_chap_auth` update. -/
def hitachiCtx2 (backendName : String) (backendConfig : Ctx) : Ctx :=
  if hasKey (hitachiCtx1 backendName backendConfig) "chap_username" then
    upsert (hitachiCtx1 backendName backendConfig) "use_chap_auth" (Val.bool true)
  else hitachiCtx1 backendName backendConfig

/-- Hitachi context after the `hitachi_mirror_use_chap_auth` update. -/
def hitachiCtx3 (backendName : String) (backendConfig : Ctx) : Ctx :=
  if hasKey (hitachiCtx2 backendName backendConfig) "hitachi_mirror_auth_username" then
    upsert (hitachiCtx2 backendName backendConfig)
      "hitachi_mirror_use_chap_auth" (Val.bool true)
  else hitachiCtx2 backendName backendConfig

/-- `HitachiBackendContext.context()`. -/
def hitachiContext (backendName : String) (backendConfig : Ctx) : Ctx :=
  if ((lookupA (hitachiCtx3 backendName backendConfig)
        "hitachi_mirror_driver_ssl_cert").getD Val.vnone).truthy then
    upsert
      (upsert (hitachiCtx3 backendName backendConfig) "hitachi_mirror_ssl_cert_path"
        (Val.str ("\x7b\x7b snap_paths.common \x7d\x7d/" ++ ETC_CINDER_D_CONF_DIR
          ++ "/" ++ backendName ++ "_mirror.pem")))
      "hitachi_mirror_ssl_cert_verify" (Val.bool true)
  else hitachiCtx3 backendName backendConfig

/-- `PureBackendContext.context()`: driver class chosen from `protocol`
(`backend_config.get("protocol", "fc").lower()`), falling back to FC. -/
def pureContext (backendName : String) (backendConfig : Ctx) : Ctx :=
  let protocol := toLowerStr (getStrD backendConfig "protocol" "fc")
  let driverClass :=
    if protocol = "iscsi" then "cinder.volume.drivers.pure.PureISCSIDriver"
    else if protocol = "fc" then "cinder.volume.drivers.pure.PureFCDriver"
    else if protocol = "nvme" then "cinder.volume.drivers.pure.PureNVMEDriver"
    else "cinder.volume.drivers.pure.PureFCDriver"
  upsert (baseContext backendName backendConfig) "volume_driver" (Val.str driverClass)

/-- `DellscBackendContext.context()`. -/
def dellscContext (backendName : String) (backendConfig : Ctx) : Ctx :=
  let protocol := toLowerStr (getStrD backendConfig "protocol" "fc")
  let driverClass :=
    if protocol = "iscsi" then
      "cinder.volume.drivers.dell_emc.sc.storagecenter_iscsi.SCISCSIDriver"
    else if protocol = "fc" then
      "cinder.volume.drivers.dell_emc.sc.storagecenter_fc.SCFCDriver"
    else "cinder.volume.drivers.dell_emc.sc.storagecenter_fc.SCFCDriver"
  upsert (baseContext backendName backendConfig) "volume_driver" (Val.str driverClass)

/-- `DellpowerstoreBackendContext.context()`. -/
def dellpowerstoreContext (backendName : String) (backendConfig : Ctx) : Ctx :=
  upsert
    (upsert (baseContext backendName backendConfig) "volume_driver"
      (Val.str "cinder.volume.drivers.dell_emc.powerstore.driver.PowerStoreDriver"))
    "storage_protocol" (Val.str (toLowerStr (getStrD backendConfig "protocol" "fc")))

/-- Kind dispatch for `context()`. -/
def contextOf : BKind → String → Ctx → Ctx
  | .ceph => cephContext
  | .lvm => lvmContext
  | .hitachi => hitachiContext
  | .pureK => pureContext
  | .dellsc => dellscContext
  | .dellpowerstore => dellpowerstoreContext

/-- `BaseBackendContext.cinder_context()`: drop hidden keys, drop `None`s. -/
def cinderContextOf (kind : BKind) (backendName : String) (backendConfig : Ctx) : Ctx :=
  (contextOf kind backendName backendConfig).filter
    (fun kv => !(hiddenKeysOf kind).contains kv.1 && !kv.2.isNoneV)

/-! ## Template descriptors and the filesystem model -/

/-- A template descriptor (`template.CommonTemplate`).  The class itself lives
in the repository's `template.py`, which is not under `src/`; the fields are
those used by `cinder_volume.py` and `context.py` at every construction site:
filename, destination directory, file mode, optional logical template name and
conditionals. -/
structure Template where
  filename : String
  dest : String
  mode : Nat
  templateName : Option String
  conditionals : List (Ctx → Bool)

/-- Modelled from the spec: `template.py` is not under `src/`; §4.4 resolves
the template body by logical name (the declared `template_name`, else the
destination filename); the documented `.j2` fallback only affects which file
backs the name, not the rendered content, so it is invisible behind the
abstract render function. -/
def logicalName (t : Template) : String := t.templateName.getD t.filename

/-- `str.removesuffix(".j2")` applied to the destination filename
(`_process_template`: `file_name.removesuffix(".j2")`). -/
def removeJ2Suffix (s : String) : String :=
  if endsWithStr ".j2" s then ⟨s.data.take (s.data.length - 3)⟩ else s

/-- Modelled from the spec: `Template.rel_path` lives in the missing
`template.py`; per §4.4/§6 it is the destination path relative to the common
root — destination directory joined with the suffix-stripped filename, the
same path `_process_template` writes to. -/
def relPath (t : Template) : String := t.dest ++ "/" ++ removeJ2Suffix t.filename

/-- `context.backend_variable_set`: all the named variables are truthy in the
`cinder_backends.contexts[backend]` sub-mapping of the render namespace. -/
def getDictD : Option Val → Ctx
  | some (Val.dict m) => m
  | _ => []

def backendVariableSet (backend : String) (vars : List String) : Ctx → Bool :=
  fun ctx =>
    let nsContext :=
      getDictD (lookupA (getDictD (lookupA (getDictD (lookupA ctx "cinder_backends"))
        "contexts")) backend)
    vars.all (fun v => ((lookupA nsContext v).getD Val.vnone).truthy)

/-- One enabled backend instance: its instance key (which the source also uses
as `backend_name`), its kind, and its dumped configuration record. -/
structure Backend where
  key : String
  kind : BKind
  config : Ctx

/-- The `<backend_name>.conf` fragment (`BaseBackendContext.template_files`). -/
def backendConfTemplate (key : String) : Template :=
  ⟨key ++ ".conf", ETC_CINDER_D_CONF_DIR, 420, some "backend.conf.j2", []⟩

/-- The conditional `<backend_name>.pem` secret file. -/
def backendPemTemplate (key : String) : Template :=
  ⟨key ++ ".pem", ETC_CINDER_D_CONF_DIR, 420, some "backend.pem.j2",
    [backendVariableSet key ["driver_ssl_cert_path"]]⟩

/-- `template_files()` of each backend context: the base pair plus
kind-specific additions (Ceph config/keyring, Hitachi mirror certificate). -/
def templateFilesOf (b : Backend) : List Template :=
  [backendConfTemplate b.key, backendPemTemplate b.key] ++
    (match b.kind with
     | .ceph =>
       [⟨cephConf b.key, "etc/ceph", 420, some "ceph.conf.j2", []⟩,
        ⟨cephKeyring b.key, "etc/ceph", 384, some "ceph.client.keyring.j2", []⟩]
     | .hitachi =>
       [⟨b.key ++ "_mirror.pem", ETC_CINDER_D_CONF_DIR, 420,
         some "hitachi_backend.pem.j2",
         [backendVariableSet b.key ["hitachi_mirror_ssl_cert_path"]]⟩]
     | _ => [])

/-- `CinderVolume.template_files()`: the global templates. -/
def globalTemplateFiles : List Template :=
  [⟨"cinder.conf", "etc/cinder", 420, none, []⟩,
   ⟨"rootwrap.conf", "etc/cinder", 420, none, []⟩]

/-- The destination filesystem: relative path ↦ file content. -/
abbrev FS := List (String × String)

/-- Path lies in the fragment directory and matches the `*.conf` glob of
`_clear_backend_configs` (suffix match inside `etc/cinder/cinder.conf.d`). -/
def isBackendConfFile (p : String) : Bool :=
  startsWithList "etc/cinder/cinder.conf.d/".data p.data && endsWithStr ".conf" p

/-- `CinderVolume._clear_backend_configs`: unlink every `*.conf` in the
fragment directory. -/
def clearBackendConfigs : FS → FS
  | [] => []
  | (k, v) :: rest =>
    if isBackendConfFile k then clearBackendConfigs rest
    else (k, v) :: clearBackendConfigs rest

/-- `dest_file.unlink()`. -/
def eraseFile : FS → String → FS
  | [], _ => []
  | (k, v) :: rest, p =>
    if k = p then eraseFile rest p else (k, v) :: eraseFile rest p

/-- `ensure trailing new line` step of `_process_template`:
`if len(rendered) > 0 and rendered[-1] != "\n": rendered += "\n"`. -/
def normalizeRendered (s : String) : String :=
  if s.data ≠ [] ∧ s.data.getLast? ≠ some '\n' then s ++ "\n" else s

/-- Number of trailing newline characters of a string. -/
def countTrailingNewlines (s : String) : Nat :=
  (s.data.reverse.takeWhile (fun c => c = '\n')).length

/-- `CinderVolume._process_template` for one descriptor: compare the prior
content's fingerprint with the freshly rendered (newline-normalized) output;
delete the destination when a conditional fails; write only on change.
Returns the updated filesystem and the "was modified" flag. -/
def processTemplate (render : String → Ctx → String) (ctx : Ctx) (t : Template)
    (fs : FS) : FS × Bool :=
  if !t.conditionals.isEmpty && !(t.conditionals.all (fun c => c ctx)) then
    (eraseFile fs (relPath t), false)
  else if lookupA fs (relPath t)
      = some (normalizeRendered (render (logicalName t) ctx)) then
    (fs, false)
  else (upsert fs (relPath t) (normalizeRendered (render (logicalName t) ctx)), true)

/-- The sequence of render passes of `CinderVolume.template`: the global
templates with the composed namespace, then each backend's templates with the
two reserved keys overlaid for that pass (the source's in-place
injection/removal of `BACKEND_CTX_KEY`/`CINDER_CTX_KEY` around each pass is
modelled as a per-pass context overlay). -/
def backendPassCtx (ctx1 : Ctx) (b : Backend) : Ctx :=
  upsert (upsert ctx1 BACKEND_CTX_KEY (Val.dict (contextOf b.kind b.key b.config)))
    CINDER_CTX_KEY (Val.str b.key)

def renderJobs (ctx1 : Ctx) (backends : List Backend) : List (Ctx × Template) :=
  globalTemplateFiles.map (fun t => (ctx1, t)) ++
    backends.flatMap (fun b => (templateFilesOf b).map (fun t => (backendPassCtx ctx1 b, t)))

/-- Fold `_process_template` over the passes, accumulating the modified list. -/
def processJobs (render : String → Ctx → String) :
    List (Ctx × Template) → FS → FS × List Template
  | [], fs => (fs, [])
  | (ctx, t) :: rest, fs =>
    ((processJobs render rest (processTemplate render ctx t fs).1).1,
      if (processTemplate render ctx t fs).2 then
        t :: (processJobs render rest (processTemplate render ctx t fs).1).2
      else (processJobs render rest (processTemplate render ctx t fs).1).2)

/-- `CinderBackendContexts.context()`: the aggregate namespace value. -/
def aggregateContext (backends : List Backend) : Ctx :=
  [("enabled_backends", Val.str (String.intercalate "," (backends.map Backend.key))),
   ("cluster_ok", Val.bool (backends.all (fun b => supportsClusterOf b.kind))),
   ("contexts", Val.dict (backends.map (fun b =>
     (b.key, Val.dict (cinderContextOf b.kind b.key b.config)))))]

mutual

/-- `CinderVolume._render_specific_backend_configs`: substitute embedded
template expressions in string values, recursing through nested dicts; the
jinja evaluation of one string (`jinja2.Template(value).render(**context)`),
which can fail on a malformed expression, is the abstract `ev`. -/
def renderSpecific (ev : String → Ctx → Except String String) (ctx : Ctx) :
    Val → Except String Val
  | .str s => (ev s ctx).map Val.str
  | .dict m => (renderSpecificMap ev ctx m).map Val.dict
  | v => .ok v

def renderSpecificMap (ev : String → Ctx → Except String String) (ctx : Ctx) :
    List (String × Val) → Except String (List (String × Val))
  | [] => .ok []
  | (k, v) :: rest => do
    let v' ← renderSpecific ev ctx v
    let rest' ← renderSpecificMap ev ctx rest
    .ok ((k, v') :: rest')

end

/-- `CinderVolume.template`: deriving the base render context (`render_context`,
outcome `ctxOut`) is inside `try/except` — a failure is logged and yields an
empty modified list; the embedded-expression substitution of the backend
aggregate happens after that guard, so its failure propagates. -/
def templateRun (render : String → Ctx → String)
    (ev : String → Ctx → Except String String)
    (ctxOut : Except String Ctx) (backends : List Backend) (fs : FS) :
    Except String (FS × List Template) :=
  match ctxOut with
  | .error _ => .ok (fs, [])
  | .ok ctx0 =>
    match renderSpecific ev ctx0 (Val.dict (aggregateContext backends)) with
    | .error e => .error e
    | .ok agg =>
      let ctx1 := upsert ctx0 "cinder_backends" agg
      .ok (processJobs render (renderJobs ctx1 backends) fs)

def NO_BACKENDS_MSG : String := "At least one backend must be enabled"

/-- `CinderBackendContexts.__init__`: at least one enabled backend, and every
enabled backend has a context. -/
def mkCinderBackendContexts (enabledBackends : List String)
    (contexts : List (String × Backend)) : Except String (List Backend) :=
  if enabledBackends.isEmpty then .error NO_BACKENDS_MSG
  else if !(enabledBackends.filter (fun n => !(keysA contexts).contains n)).isEmpty then
    .error ("Context missing configuration for backends: "
      ++ String.intercalate ", "
        (enabledBackends.filter (fun n => !(keysA contexts).contains n)))
  else .ok (contexts.map Prod.snd)

/-- `CinderVolume.configure`: clear all backend fragments first; a
backend-context resolution error whose message contains the
no-enabled-backends text is recoverable (return after the cleanup), any other
error propagates; otherwise render. -/
def configure (render : String → Ctx → String)
    (ev : String → Ctx → Except String String)
    (ctxOut : Except String Ctx) (backendsOut : Except String (List Backend))
    (fs : FS) : Except String (FS × List Template) :=
  let fs1 := clearBackendConfigs fs
  match backendsOut with
  | .error e => if strContains NO_BACKENDS_MSG e then .ok (fs1, []) else .error e
  | .ok backends => templateRun render ev ctxOut backends fs1

/-! ## Configuration document and validation
(`src/cinder_volume/configuration.py`) -/

/-- A validated non-Ceph backend record, projected to the field the
whole-document validator reads (`volume_backend_name`) plus the remaining
dumped fields. -/
structure PlainRec where
  volume_backend_name : String
  fields : Ctx

/-- A validated Ceph backend record: the validator additionally reads
`rbd_pool`. -/
structure CephRec where
  volume_backend_name : String
  rbd_pool : String
  fields : Ctx

/-- The backend sections of `configuration.Configuration`, one mapping of
instance key to record per kind, in field-declaration order. -/
structure Cfg where
  ceph : List (String × CephRec)
  lvm : List (String × PlainRec)
  hitachi : List (String × PlainRec)
  pureB : List (String × PlainRec)
  dellsc : List (String × PlainRec)
  dellpowerstore : List (String × PlainRec)

def dupNameMsg (n ty key : String) : String :=
  "Duplicate backend name \x27" ++ n ++ "\x27 found in " ++ ty
    ++ " backend \x27" ++ key ++ "\x27"

def dupPoolMsg (p key : String) : String :=
  "Duplicate Ceph pool \x27" ++ p ++ "\x27 found in backend \x27" ++ key ++ "\x27"

/-- The inner loop of `validate_unique_backend_names` over the Ceph section:
collision on `volume_backend_name` against the accumulated set, then on
`rbd_pool`.  Accumulators are the mutable `backend_names` / `ceph_pools`
sets (membership-only, modelled as lists). -/
def scanCeph : List (String × CephRec) → List String → List String →
    Except String (List String × List String)
  | [], names, pools => .ok (names, pools)
  | (key, b) :: rest, names, pools =>
    if b.volume_backend_name ∈ names then
      .error (dupNameMsg b.volume_backend_name "ceph" key)
    else if b.rbd_pool ∈ pools then .error (dupPoolMsg b.rbd_pool key)
    else scanCeph rest (b.volume_backend_name :: names) (b.rbd_pool :: pools)

/-- The inner loop over a non-Ceph section. -/
def scanPlain (ty : String) : List (String × PlainRec) → List String →
    Except String (List String)
  | [], names => .ok names
  | (key, b) :: rest, names =>
    if b.volume_backend_name ∈ names then
      .error (dupNameMsg b.volume_backend_name ty key)
    else scanPlain ty rest (b.volume_backend_name :: names)

/-- `Configuration.validate_unique_backend_names`: a single linear scan over
all backend sections in declaration order; on success the document itself is
returned (`return self`), on the first collision a `ValueError` message. -/
def validateUniqueBackendNames (cfg : Cfg) : Except String Cfg :=
  match scanCeph cfg.ceph [] [] with
  | .error e => .error e
  | .ok np =>
    match scanPlain "lvm" cfg.lvm np.1 with
    | .error e => .error e
    | .ok names =>
      match scanPlain "hitachi" cfg.hitachi names with
      | .error e => .error e
      | .ok names =>
        match scanPlain "pure" cfg.pureB names with
        | .error e => .error e
        | .ok names =>
          match scanPlain "dellsc" cfg.dellsc names with
          | .error e => .error e
          | .ok names =>
            match scanPlain "dellpowerstore" cfg.dellpowerstore names with
            | .error e => .error e
            | .ok _ => .ok cfg

def cephNames (bs : List (String × CephRec)) : List String :=
  bs.map (fun kv => kv.2.volume_backend_name)

def cephPoolsOf (bs : List (String × CephRec)) : List String :=
  bs.map (fun kv => kv.2.rbd_pool)

def plainNames (bs : List (String × PlainRec)) : List String :=
  bs.map (fun kv => kv.2.volume_backend_name)

/-- Every declared `volume_backend_name`, in scan order. -/
def allBackendNames (cfg : Cfg) : List String :=
  cephNames cfg.ceph ++ plainNames cfg.lvm ++ plainNames cfg.hitachi
    ++ plainNames cfg.pureB ++ plainNames cfg.dellsc ++ plainNames cfg.dellpowerstore

/-- Every declared Ceph `rbd_pool`, in scan order. -/
def allCephPools (cfg : Cfg) : List String := cephPoolsOf cfg.ceph

/-- `model_dump()` of a non-Ceph record, restricted to the projected fields. -/
def dumpPlain (r : PlainRec) : Ctx :=
  ("volume_backend_name", Val.str r.volume_backend_name) :: r.fields

/-- `model_dump()` of a Ceph record, restricted to the projected fields. -/
def dumpCeph (r : CephRec) : Ctx :=
  ("volume_backend_name", Val.str r.volume_backend_name)
    :: ("rbd_pool", Val.str r.rbd_pool) :: r.fields

/-- The enabled backend instances of a document, tagged with their kind, in
the iteration order of `GenericCinderVolume.backend_contexts` (the
`model_fields` declaration order; non-dict fields are skipped by the
`isinstance(..., dict)` test, and every one of the six kinds has a
`*BackendContext` class registered under the naming convention). -/
def instancesOf (cfg : Cfg) : List (String × Backend) :=
  cfg.ceph.map (fun kv => (kv.1, ⟨kv.1, BKind.ceph, dumpCeph kv.2⟩))
    ++ cfg.lvm.map (fun kv => (kv.1, ⟨kv.1, BKind.lvm, dumpPlain kv.2⟩))
    ++ cfg.hitachi.map (fun kv => (kv.1, ⟨kv.1, BKind.hitachi, dumpPlain kv.2⟩))
    ++ cfg.pureB.map (fun kv => (kv.1, ⟨kv.1, BKind.pureK, dumpPlain kv.2⟩))
    ++ cfg.dellsc.map (fun kv => (kv.1, ⟨kv.1, BKind.dellsc, dumpPlain kv.2⟩))
    ++ cfg.dellpowerstore.map (fun kv =>
        (kv.1, ⟨kv.1, BKind.dellpowerstore, dumpPlain kv.2⟩))

/-- `backend_ctxs[name] = context_class(name, be_cfg.model_dump())` over all
kinds: a dict keyed by instance key, so a later kind's instance with the same
key overwrites an earlier one. -/
def buildBackendCtxs (cfg : Cfg) : List (String × Backend) :=
  (instancesOf cfg).foldl (fun acc kb => upsert acc kb.1 kb.2) []

/-- `GenericCinderVolume.backend_contexts`: build the per-instance contexts
and construct the aggregate with `enabled_backends = list(backend_ctxs.keys())`. -/
def resolveBackendContexts (cfg : Cfg) : Except String (List Backend) :=
  mkCinderBackendContexts (keysA (buildBackendCtxs cfg)) (buildBackendCtxs cfg)

/-! ## Service reconciliation (`CinderVolume.start_services`) -/

/-- Modelled from the spec: `services.py` is not under `src/`; §4.5/§6 — the
fixed list of dependent processes, each declaring the artifact paths it
watches (`service.configuration_files`). -/
structure Service where
  name : String
  configuration_files : List String

/-- Outcome for one service: absent from the snap's service registry (logged
and skipped), restarted, or idempotently started. -/
inductive SvcAction where
  | skipped | restart | start
  deriving DecidableEq

/-- The per-service decision of `start_services`: restart when the modified
set intersects the union of the service's own configuration files and the
set of all backend template paths, else start. -/
def serviceDecision (registry : List String) (modifiedFiles backendFiles : List String)
    (svc : Service) : SvcAction :=
  if !registry.contains svc.name then .skipped
  else if modifiedFiles.any (fun p =>
      svc.configuration_files.contains p || backendFiles.contains p) then
    .restart
  else .start

/-- `CinderVolume.start_services`: map each declared service to its action,
with `modified_files`/`backend_files` the `rel_path` images of the modified
templates and of all backend templates. -/
def startServices (registry : List String) (modifiedTpl backendTpls : List Template)
    (svcs : List Service) : List (String × SvcAction) :=
  let modifiedFiles := modifiedTpl.map relPath
  let backendFiles := backendTpls.map relPath
  svcs.map (fun s => (s.name, serviceDecision registry modifiedFiles backendFiles s))

/-! ## Path-shape lemmas -/

theorem string_append_assoc (a b c : String) : a ++ b ++ c = a ++ (b ++ c) := by
  cases a; cases b; cases c
  exact congrArg String.mk (List.append_assoc _ _ _)

theorem startsWith_data_of_append (pre rest : String) :
    startsWithList pre.data (pre ++ rest).data = true := by
  rw [string_data_append]
  exact startsWithList_append_self _ _

theorem endsWithStr_append_self (x pat : String) :
    endsWithStr pat (x ++ pat) = true := by
  unfold endsWithStr
  rw [string_data_append, List.reverse_append]
  exact startsWithList_append_self _ _

theorem startsWithList_head_ne (a b : Char) (as bs : List Char) (h : a ≠ b) :
    startsWithList (a :: as) (b :: bs) = false := by
  simp [startsWithList, h]

theorem endsWith_conf_append_pem (x : String) :
    endsWithStr ".conf" (x ++ ".pem") = false := by
  unfold endsWithStr
  rw [string_data_append, List.reverse_append]
  exact startsWithList_head_ne _ _ _ _ (by decide)

theorem endsWith_j2_append_conf (x : String) :
    endsWithStr ".j2" (x ++ ".conf") = false := by
  unfold endsWithStr
  rw [string_data_append, List.reverse_append]
  exact startsWithList_head_ne _ _ _ _ (by decide)

theorem endsWith_j2_append_pem (x : String) :
    endsWithStr ".j2" (x ++ ".pem") = false := by
  unfold endsWithStr
  rw [string_data_append, List.reverse_append]
  exact startsWithList_head_ne _ _ _ _ (by decide)

theorem endsWith_j2_append_keyring (x : String) :
    endsWithStr ".j2" (x ++ ".keyring") = false := by
  unfold endsWithStr
  rw [string_data_append, List.reverse_append]
  exact startsWithList_head_ne _ _ _ _ (by decide)

theorem removeJ2_append_conf (x : String) :
    removeJ2Suffix (x ++ ".conf") = x ++ ".conf" := by
  simp [removeJ2Suffix, endsWith_j2_append_conf]

theorem removeJ2_append_pem (x : String) :
    removeJ2Suffix (x ++ ".pem") = x ++ ".pem" := by
  simp [removeJ2Suffix, endsWith_j2_append_pem]

theorem removeJ2_append_keyring (x : String) :
    removeJ2Suffix (x ++ ".keyring") = x ++ ".keyring" := by
  simp [removeJ2Suffix, endsWith_j2_append_keyring]

/-- The fragment path of a backend instance. -/
def fragPath (key : String) : String :=
  ETC_CINDER_D_CONF_DIR ++ "/" ++ (key ++ ".conf")

theorem relPath_backendConf (key : String) :
    relPath (backendConfTemplate key) = fragPath key := by
  simp [relPath, backendConfTemplate, fragPath, removeJ2_append_conf]

theorem relPath_backendPem (key : String) :
    relPath (backendPemTemplate key)
      = ETC_CINDER_D_CONF_DIR ++ "/" ++ (key ++ ".pem") := by
  simp [relPath, backendPemTemplate, removeJ2_append_pem]

theorem isBackendConfFile_fragPath (key : String) :
    isBackendConfFile (fragPath key) = true := by
  have hsplit : fragPath key = "etc/cinder/cinder.conf.d/" ++ key ++ ".conf" := by
    unfold fragPath ETC_CINDER_D_CONF_DIR
    rw [string_append_assoc]
    rfl
  unfold isBackendConfFile
  rw [hsplit]
  rw [string_append_assoc]
  rw [startsWith_data_of_append]
  rw [← string_append_assoc, endsWithStr_append_self]
  rfl

theorem isBackendConfFile_pem (x : String) :
    isBackendConfFile (x ++ ".pem") = false := by
  unfold isBackendConfFile
  rw [endsWith_conf_append_pem]
  simp

theorem isBackendConfFile_backendPemPath (key : String) :
    isBackendConfFile (ETC_CINDER_D_CONF_DIR ++ "/" ++ (key ++ ".pem")) = false := by
  rw [← string_append_assoc]
  exact isBackendConfFile_pem _

theorem not_confDir_prefix_of_ceph (x : String) :
    startsWithList "etc/cinder/cinder.conf.d/".data ("etc/ceph/" ++ x).data = false := by
  have h2 : ("etc/ceph/" ++ x).data
      = 'e' :: 't' :: 'c' :: '/' :: 'c' :: 'e' :: 'p' :: 'h' :: '/' :: x.data := by
    rw [string_data_append]
    rfl
  rw [h2]
  rfl

theorem isBackendConfFile_cephPath (x : String) :
    isBackendConfFile ("etc/ceph/" ++ x) = false := by
  unfold isBackendConfFile
  rw [not_confDir_prefix_of_ceph]
  rfl

/-! ## Filesystem lemmas -/

theorem lookupA_eraseFile_self (fs : FS) (p : String) :
    lookupA (eraseFile fs p) p = none := by
  induction fs with
  | nil => rfl
  | cons hd tl ih =>
    obtain ⟨k, v⟩ := hd
    by_cases hk : k = p
    · simpa [eraseFile, hk] using ih
    · simp [eraseFile, hk, lookupA_cons, ih]

theorem lookupA_eraseFile_ne (fs : FS) (p q : String) (h : q ≠ p) :
    lookupA (eraseFile fs p) q = lookupA fs q := by
  induction fs with
  | nil => rfl
  | cons hd tl ih =>
    obtain ⟨k, v⟩ := hd
    by_cases hk : k = p
    · subst hk
      simp [eraseFile, lookupA_cons, Ne.symm h, ih]
    · by_cases hq : k = q
      · simp [eraseFile, hk, lookupA_cons, hq, h]
      · simp [eraseFile, hk, lookupA_cons, hq, ih]

theorem eraseFile_of_lookup_none (fs : FS) (p : String)
    (h : lookupA fs p = none) : eraseFile fs p = fs := by
  induction fs with
  | nil => rfl
  | cons hd tl ih =>
    obtain ⟨k, v⟩ := hd
    rw [lookupA_cons] at h
    by_cases hk : k = p
    · simp [hk] at h
    · simp only [hk, if_false, if_neg] at h
      simp [eraseFile, hk, ih h]

theorem lookupA_clearBackendConfigs (fs : FS) (p : String) :
    lookupA (clearBackendConfigs fs) p
      = if isBackendConfFile p then none else lookupA fs p := by
  induction fs with
  | nil => simp [clearBackendConfigs, lookupA]
  | cons hd tl ih =>
    obtain ⟨k, v⟩ := hd
    by_cases hk : isBackendConfFile k
    · have hstep : clearBackendConfigs ((k, v) :: tl) = clearBackendConfigs tl := by
        simp [clearBackendConfigs, hk]
      rw [hstep, ih]
      by_cases hp : k = p
      · subst hp
        simp [hk]
      · simp [lookupA_cons, hp]
    · have hstep : clearBackendConfigs ((k, v) :: tl)
          = (k, v) :: clearBackendConfigs tl := by
        simp [clearBackendConfigs, hk]
      rw [hstep]
      by_cases hp : k = p
      · subst hp
        simp [lookupA_cons, hk]
      · simp [lookupA_cons, hp, ih]

/-- C10 (implicit): the per-run backend-fragment cleanup removes exactly the
files matching `*.conf` inside `etc/cinder/cinder.conf.d` and leaves every
other path untouched; in particular any `<backend-name>.pem` in the fragment
directory (for example one left by a backend removed from the configuration)
survives the cleanup. -/
theorem claim_C10 (fs : FS) (p key : String) :
    lookupA (clearBackendConfigs fs) p
        = (if isBackendConfFile p then none else lookupA fs p) ∧
      lookupA (clearBackendConfigs fs) (fragPath key) = none ∧
      lookupA (clearBackendConfigs fs) (ETC_CINDER_D_CONF_DIR ++ "/" ++ (key ++ ".pem"))
        = lookupA fs (ETC_CINDER_D_CONF_DIR ++ "/" ++ (key ++ ".pem")) := by
  refine ⟨lookupA_clearBackendConfigs fs p, ?_, ?_⟩
  · rw [lookupA_clearBackendConfigs, isBackendConfFile_fragPath]
    rfl
  · rw [lookupA_clearBackendConfigs, isBackendConfFile_backendPemPath]
    rfl

/-! ## C9: trailing-newline normalization -/

/-- C9 counterexample: a rendered output that already ends in two newlines is
left unchanged by `_process_template`'s normalization, so the written content
does not end with exactly one trailing newline. -/
theorem claim_C9_counterexample :
    normalizeRendered "a\n\n" = "a\n\n" ∧ "a\n\n" ≠ "" ∧
      countTrailingNewlines (normalizeRendered "a\n\n") = 2 := by
  refine ⟨by decide, by decide, by decide⟩

/-- C9 (amended): for non-empty rendered output the content written to (or
compared against) the destination ends with at least one trailing newline,
and with exactly one when the raw rendered output did not already end in a
newline. -/
theorem claim_C9 (s : String) (h : s ≠ "") :
    1 ≤ countTrailingNewlines (normalizeRendered s) ∧
      (s.data.getLast? ≠ some '\n' →
        countTrailingNewlines (normalizeRendered s) = 1) := by
  have hdata : s.data ≠ [] := by
    intro hnil
    apply h
    cases s with
    | mk d =>
      cases hnil
      rfl
  obtain ⟨c, rest, hrev⟩ : ∃ c rest, s.data.reverse = c :: rest := by
    cases hr : s.data.reverse with
    | nil =>
      exact absurd (List.reverse_eq_nil_iff.mp hr) hdata
    | cons c rest => exact ⟨c, rest, rfl⟩
  have hhead : s.data.getLast? = some c := by
    rw [← List.head?_reverse, hrev]
    rfl
  by_cases hlast : s.data.getLast? = some '\n'
  · have hc : c = '\n' := by
      rw [hhead] at hlast
      exact (Option.some_inj.mp hlast)
    have hn : normalizeRendered s = s := by
      unfold normalizeRendered
      rw [if_neg]
      intro hcontra
      exact hcontra.2 hlast
    constructor
    · rw [hn]
      unfold countTrailingNewlines
      rw [hrev, hc]
      simp [List.takeWhile_cons]
    · intro hcontra
      exact absurd hlast hcontra
  · have hc : c ≠ '\n' := by
      rw [hhead] at hlast
      intro hceq
      exact hlast (by rw [hceq])
    have hn : normalizeRendered s = s ++ "\n" := by
      unfold normalizeRendered
      rw [if_pos ⟨hdata, hlast⟩]
    have hrev2 : (s ++ "\n").data.reverse = '\n' :: s.data.reverse := by
      rw [string_data_append, List.reverse_append]
      rfl
    have hcount : countTrailingNewlines (normalizeRendered s) = 1 := by
      rw [hn]
      unfold countTrailingNewlines
      rw [hrev2, hrev]
      simp [List.takeWhile_cons, hc]
    exact ⟨by rw [hcount], fun _ => hcount⟩

/-- C9 witness. -/
theorem claim_C9_witness :
    1 ≤ countTrailingNewlines (normalizeRendered "a") ∧
      ("a".data.getLast? ≠ some '\n' →
        countTrailingNewlines (normalizeRendered "a") = 1) :=
  claim_C9 "a" (by decide)

/-! ## C8: driver selection -/

theorem getStrD_of_some (m : Ctx) (key dflt s : String)
    (h : lookupA m key = some (Val.str s)) : getStrD m key dflt = s := by
  unfold getStrD
  rw [h]

theorem getStrD_of_none (m : Ctx) (key dflt : String)
    (h : lookupA m key = none) : getStrD m key dflt = dflt := by
  unfold getStrD
  rw [h]

theorem lookupA_cephContext_vd (name : String) (config : Ctx) :
    lookupA (cephContext name config) "volume_driver"
      = some (Val.str "cinder.volume.drivers.rbd.RBDDriver") := by
  unfold cephContext
  rw [lookupA_upsert_ne _ _ _ _ (by decide), lookupA_upsert_ne _ _ _ _ (by decide),
    lookupA_upsert_self]

theorem lookupA_pureContext_vd (name : String) (config : Ctx) :
    lookupA (pureContext name config) "volume_driver"
      = some (Val.str
          (if toLowerStr (getStrD config "protocol" "fc") = "iscsi" then
            "cinder.volume.drivers.pure.PureISCSIDriver"
          else if toLowerStr (getStrD config "protocol" "fc") = "fc" then
            "cinder.volume.drivers.pure.PureFCDriver"
          else if toLowerStr (getStrD config "protocol" "fc") = "nvme" then
            "cinder.volume.drivers.pure.PureNVMEDriver"
          else "cinder.volume.drivers.pure.PureFCDriver")) := by
  unfold pureContext
  exact lookupA_upsert_self _ _ _

/-- C8: a Ceph-kind record always derives the fixed RBD driver class,
whatever its other fields; a Pure-kind record derives the NVMe class for
`protocol = "nvme"`, the iSCSI class for `protocol = "iscsi"`, and the
Fibre-Channel class when `protocol` is absent or unrecognized. -/
theorem claim_C8 (name : String) (config : Ctx) :
    lookupA (cephContext name config) "volume_driver"
        = some (Val.str "cinder.volume.drivers.rbd.RBDDriver") ∧
      (lookupA config "protocol" = some (Val.str "nvme") →
        lookupA (pureContext name config) "volume_driver"
          = some (Val.str "cinder.volume.drivers.pure.PureNVMEDriver")) ∧
      (lookupA config "protocol" = some (Val.str "iscsi") →
        lookupA (pureContext name config) "volume_driver"
          = some (Val.str "cinder.volume.drivers.pure.PureISCSIDriver")) ∧
      (lookupA config "protocol" = none →
        lookupA (pureContext name config) "volume_driver"
          = some (Val.str "cinder.volume.drivers.pure.PureFCDriver")) ∧
      (∀ s, lookupA config "protocol" = some (Val.str s) →
        toLowerStr s ≠ "iscsi" → toLowerStr s ≠ "fc" → toLowerStr s ≠ "nvme" →
        lookupA (pureContext name config) "volume_driver"
          = some (Val.str "cinder.volume.drivers.pure.PureFCDriver")) := by
  refine ⟨lookupA_cephContext_vd name config, ?_, ?_, ?_, ?_⟩
  · intro hp
    rw [lookupA_pureContext_vd, getStrD_of_some _ _ _ _ hp]
    rfl
  · intro hp
    rw [lookupA_pureContext_vd, getStrD_of_some _ _ _ _ hp]
    rfl
  · intro hp
    rw [lookupA_pureContext_vd, getStrD_of_none _ _ _ hp]
    rfl
  · intro s hp h1 h2 h3
    rw [lookupA_pureContext_vd, getStrD_of_some _ _ _ _ hp,
      if_neg h1, if_neg h2, if_neg h3]

/-- C8 witness. -/
theorem claim_C8_witness :
    lookupA (cephContext "c" [("x", Val.int 3)]) "volume_driver"
        = some (Val.str "cinder.volume.drivers.rbd.RBDDriver") ∧
      lookupA (pureContext "p" [("protocol", Val.str "nvme")]) "volume_driver"
        = some (Val.str "cinder.volume.drivers.pure.PureNVMEDriver") ∧
      lookupA (pureContext "p" [("protocol", Val.str "weird")]) "volume_driver"
        = some (Val.str "cinder.volume.drivers.pure.PureFCDriver") := by
  refine ⟨(claim_C8 "c" [("x", Val.int 3)]).1,
    (claim_C8 "p" [("protocol", Val.str "nvme")]).2.1 rfl,
    (claim_C8 "p" [("protocol", Val.str "weird")]).2.2.2.2 "weird" rfl
      (by decide) (by decide) (by decide)⟩

/-! ## C7: hidden-key exclusion and None-dropping -/

theorem lookupA_filter_none (pred : String × Val → Bool) (m : Ctx) (k : String)
    (h : ∀ v, pred (k, v) = false) : lookupA (m.filter pred) k = none := by
  induction m with
  | nil => rfl
  | cons hd tl ih =>
    obtain ⟨k', v'⟩ := hd
    rw [List.filter_cons]
    by_cases hp : pred (k', v') = true
    · rw [if_pos hp, lookupA_cons]
      by_cases hk : k' = k
      · subst hk
        rw [h v'] at hp
        cases hp
      · rw [if_neg hk]
        exact ih
    · rw [if_neg (by simpa using hp)]
      exact ih

theorem lookupA_filter_some (pred : String × Val → Bool) (m : Ctx) (k : String)
    (v : Val) (h : lookupA (m.filter pred) k = some v) : pred (k, v) = true := by
  induction m with
  | nil => cases h
  | cons hd tl ih =>
    obtain ⟨k', v'⟩ := hd
    rw [List.filter_cons] at h
    by_cases hp : pred (k', v')
    · rw [if_pos hp, lookupA_cons] at h
      by_cases hk : k' = k
      · subst hk
        rw [if_pos rfl] at h
        cases h
        exact hp
      · rw [if_neg hk] at h
        exact ih h
    · rw [if_neg (by simpa using hp)] at h
      exact ih h

theorem contains_of_mem {l : List String} {a : String} (h : a ∈ l) :
    l.contains a = true := by
  simpa using h

theorem lookupA_baseContext_preserve (name : String) (config : Ctx) (key : String)
    (h1 : key ≠ "driver_ssl_cert_path") (h2 : key ≠ "driver_ssl_cert_verify") :
    lookupA (baseContext name config) key = lookupA config key := by
  unfold baseContext
  split
  · rw [lookupA_upsert_ne _ _ _ _ (Ne.symm h2), lookupA_upsert_ne _ _ _ _ (Ne.symm h1)]
  · rfl

theorem lookupA_contextOf_ssl (kind : BKind) (name : String) (config : Ctx) :
    lookupA (contextOf kind name config) "driver_ssl_cert"
      = lookupA config "driver_ssl_cert" := by
  cases kind with
  | ceph =>
    unfold contextOf cephContext
    rw [lookupA_upsert_ne _ _ _ _ (by decide), lookupA_upsert_ne _ _ _ _ (by decide),
      lookupA_upsert_ne _ _ _ _ (by decide),
      lookupA_baseContext_preserve _ _ _ (by decide) (by decide)]
  | lvm =>
    show lookupA (lvmContext name config) "driver_ssl_cert"
      = lookupA config "driver_ssl_cert"
    have hbase : lookupA (lvmCtx0 name config) "driver_ssl_cert"
        = lookupA config "driver_ssl_cert" := by
      unfold lvmCtx0
      rw [lookupA_upsert_ne _ _ _ _ (by decide),
        lookupA_baseContext_preserve _ _ _ (by decide) (by decide)]
    unfold lvmContext
    split
    · rw [lookupA_upsert_ne _ _ _ _ (by decide), hbase]
    · exact hbase
  | hitachi =>
    show lookupA (hitachiContext name config) "driver_ssl_cert"
      = lookupA config "driver_ssl_cert"
    have h1 : lookupA (hitachiCtx1 name config) "driver_ssl_cert"
        = lookupA config "driver_ssl_cert" := by
      unfold hitachiCtx1
      rw [lookupA_upsert_ne _ _ _ _ (by decide),
        lookupA_baseContext_preserve _ _ _ (by decide) (by decide)]
    have h2 : lookupA (hitachiCtx2 name config) "driver_ssl_cert"
        = lookupA config "driver_ssl_cert" := by
      unfold hitachiCtx2
      split
      · rw [lookupA_upsert_ne _ _ _ _ (by decide), h1]
      · exact h1
    have h3 : lookupA (hitachiCtx3 name config) "driver_ssl_cert"
        = lookupA config "driver_ssl_cert" := by
      unfold hitachiCtx3
      split
      · rw [lookupA_upsert_ne _ _ _ _ (by decide), h2]
      · exact h2
    unfold hitachiContext
    split
    · rw [lookupA_upsert_ne _ _ _ _ (by decide),
        lookupA_upsert_ne _ _ _ _ (by decide), h3]
    · exact h3
  | pureK =>
    unfold contextOf pureContext
    rw [lookupA_upsert_ne _ _ _ _ (by decide),
      lookupA_baseContext_preserve _ _ _ (by decide) (by decide)]
  | dellsc =>
    unfold contextOf dellscContext
    rw [lookupA_upsert_ne _ _ _ _ (by decide),
      lookupA_baseContext_preserve _ _ _ (by decide) (by decide)]
  | dellpowerstore =>
    unfold contextOf dellpowerstoreContext
    rw [lookupA_upsert_ne _ _ _ _ (by decide), lookupA_upsert_ne _ _ _ _ (by decide),
      lookupA_baseContext_preserve _ _ _ (by decide) (by decide)]

theorem lookupA_cephContext_rbdkey (name : String) (config : Ctx) :
    lookupA (cephContext name config) "rbd_key" = lookupA config "rbd_key" := by
  unfold cephContext
  rw [lookupA_upsert_ne _ _ _ _ (by decide), lookupA_upsert_ne _ _ _ _ (by decide),
    lookupA_upsert_ne _ _ _ _ (by decide),
    lookupA_baseContext_preserve _ _ _ (by decide) (by decide)]

/-- C7: a backend's cinder-facing context (`cinder_context`) never contains a
key of the kind's accumulated hidden-key set and never contains a `None`
value, while the raw per-backend `context()` retains a hidden field that is
present in the record (`driver_ssl_cert` for every kind, `rbd_key` for
Ceph). -/
theorem claim_C7 (kind : BKind) (name : String) (config : Ctx) :
    (∀ k, k ∈ hiddenKeysOf kind →
        lookupA (cinderContextOf kind name config) k = none) ∧
      (∀ k v, lookupA (cinderContextOf kind name config) k = some v →
        v.isNoneV = false) ∧
      (∀ v, lookupA config "driver_ssl_cert" = some v →
        lookupA (contextOf kind name config) "driver_ssl_cert" = some v) ∧
      (∀ v, lookupA config "rbd_key" = some v →
        lookupA (contextOf BKind.ceph name config) "rbd_key" = some v) := by
  refine ⟨?_, ?_, ?_, ?_⟩
  · intro k hk
    apply lookupA_filter_none
    intro v
    show (!(hiddenKeysOf kind).contains k && !v.isNoneV) = false
    rw [contains_of_mem hk]
    rfl
  · intro k v hv
    have := lookupA_filter_some _ _ _ _ hv
    simp only [Bool.and_eq_true, Bool.not_eq_true'] at this
    exact this.2
  · intro v hv
    rw [lookupA_contextOf_ssl, hv]
  · intro v hv
    have : lookupA (contextOf BKind.ceph name config) "rbd_key"
        = lookupA config "rbd_key" := lookupA_cephContext_rbdkey name config
    rw [this, hv]

/-- C7 witness. -/
theorem claim_C7_witness :
    lookupA (cinderContextOf BKind.ceph "a" [("rbd_key", Val.str "k")]) "rbd_key"
        = none ∧
      lookupA (contextOf BKind.ceph "a" [("rbd_key", Val.str "k")]) "rbd_key"
        = some (Val.str "k") := by
  refine ⟨(claim_C7 BKind.ceph "a" [("rbd_key", Val.str "k")]).1 "rbd_key" (by decide),
    (claim_C7 BKind.ceph "a" [("rbd_key", Val.str "k")]).2.2.2 (Val.str "k") rfl⟩

/-! ## C2: restart decision -/

/-- C2 counterexample: the code intersects the modified set with the union of
the service's own configuration files and the paths of all backend templates
(`set(service.configuration_files) | backend_files`), so a service whose own
watched set is disjoint from the modified set is still restarted when a
backend template path was modified — contradicting the claimed
"restart iff own watched-set meets the modified set" rule. -/
theorem claim_C2_counterexample :
    serviceDecision ["scheduler"] ["etc/cinder/cinder.conf.d/a.conf"]
        ["etc/cinder/cinder.conf.d/a.conf"]
        ⟨"scheduler", ["etc/cinder/rootwrap.conf"]⟩ = SvcAction.restart ∧
      (["etc/cinder/cinder.conf.d/a.conf"].filter
        (fun p => p ∈ ["etc/cinder/rootwrap.conf"])) = [] := by
  refine ⟨by decide, by decide⟩

/-- C2 (amended): for a service present in the registry the decision is
restart iff the modified set meets the union of the service's own
configuration files and the backend template paths, else (idempotent) start;
the claim's concrete scenario (P watching `etc/cinder/cinder.conf` is
restarted, Q watching only `etc/cinder/cinder.conf.d/x.conf` is started when
exactly `etc/cinder/cinder.conf` was modified) does hold. -/
theorem claim_C2 (registry : List String) (modifiedFiles backendFiles : List String)
    (svc : Service) (h : svc.name ∈ registry) :
    (serviceDecision registry modifiedFiles backendFiles svc = SvcAction.restart ↔
        ∃ p ∈ modifiedFiles, p ∈ svc.configuration_files ∨ p ∈ backendFiles) ∧
      (serviceDecision registry modifiedFiles backendFiles svc = SvcAction.start ↔
        ¬∃ p ∈ modifiedFiles, p ∈ svc.configuration_files ∨ p ∈ backendFiles) ∧
      startServices ["P", "Q"]
          [(⟨"cinder.conf", "etc/cinder", 420, none, []⟩ : Template)]
          [backendConfTemplate "x"]
          [⟨"P", ["etc/cinder/cinder.conf"]⟩,
           ⟨"Q", ["etc/cinder/cinder.conf.d/x.conf"]⟩]
        = [("P", SvcAction.restart), ("Q", SvcAction.start)] := by
  have hreg : (!registry.contains svc.name) = false := by
    rw [contains_of_mem h]
    rfl
  have hany : (modifiedFiles.any (fun p =>
      svc.configuration_files.contains p || backendFiles.contains p) = true) ↔
      ∃ p ∈ modifiedFiles, p ∈ svc.configuration_files ∨ p ∈ backendFiles := by
    simp [List.any_eq_true]
  refine ⟨?_, ?_, by decide⟩
  · unfold serviceDecision
    rw [hreg]
    simp only [Bool.false_eq_true, if_false]
    by_cases hc : modifiedFiles.any (fun p =>
        svc.configuration_files.contains p || backendFiles.contains p) = true
    · rw [if_pos hc]
      simp [hany.mp hc]
    · rw [if_neg hc]
      constructor
      · intro hcontra
        cases hcontra
      · intro hcontra
        exact absurd (hany.mpr hcontra) hc
  · unfold serviceDecision
    rw [hreg]
    simp only [Bool.false_eq_true, if_false]
    by_cases hc : modifiedFiles.any (fun p =>
        svc.configuration_files.contains p || backendFiles.contains p) = true
    · rw [if_pos hc]
      constructor
      · intro hcontra
        cases hcontra
      · intro hcontra
        exact absurd (hany.mp hc) hcontra
    · rw [if_neg hc]
      constructor
      · intro _
        intro hcontra
        exact absurd (hany.mpr hcontra) hc
      · intro _
        rfl

/-- C2 witness. -/
theorem claim_C2_witness :
    (serviceDecision ["s"] ["etc/cinder/cinder.conf"] []
          ⟨"s", ["etc/cinder/cinder.conf"]⟩ = SvcAction.restart ↔
        ∃ p ∈ ["etc/cinder/cinder.conf"],
          p ∈ ["etc/cinder/cinder.conf"] ∨ p ∈ ([] : List String)) ∧
      (serviceDecision ["s"] ["etc/cinder/cinder.conf"] []
          ⟨"s", ["etc/cinder/cinder.conf"]⟩ = SvcAction.start ↔
        ¬∃ p ∈ ["etc/cinder/cinder.conf"],
          p ∈ ["etc/cinder/cinder.conf"] ∨ p ∈ ([] : List String)) ∧
      startServices ["P", "Q"]
          [(⟨"cinder.conf", "etc/cinder", 420, none, []⟩ : Template)]
          [backendConfTemplate "x"]
          [⟨"P", ["etc/cinder/cinder.conf"]⟩,
           ⟨"Q", ["etc/cinder/cinder.conf.d/x.conf"]⟩]
        = [("P", SvcAction.restart), ("Q", SvcAction.start)] :=
  claim_C2 ["s"] ["etc/cinder/cinder.conf"] []
    ⟨"s", ["etc/cinder/cinder.conf"]⟩ (by decide)

/-! ## C4: zero backends recoverable, other errors fatal -/

theorem startsWithList_refl (l : List Char) : startsWithList l l = true := by
  induction l with
  | nil => rfl
  | cons c cs ih => simp [startsWithList, ih]

theorem containsList_self (l : List Char) : containsList l l = true := by
  cases l with
  | nil => rfl
  | cons c cs =>
    unfold containsList
    rw [startsWithList_refl]
    rfl

theorem strContains_self (s : String) : strContains s s = true :=
  containsList_self s.data

/-- C4: a configuration with zero enabled backend instances makes
`backend_contexts` raise the no-enabled-backends error, which `configure`
recognizes (substring test) and recovers from: it returns normally after the
fragment cleanup, rendering nothing; any other resolution error is
propagated unchanged, so neither rendering nor service start happens. -/
theorem claim_C4 :
    (∀ (render : String → Ctx → String) (ev : String → Ctx → Except String String)
        (ctxOut : Except String Ctx) (cfg : Cfg) (fs : FS),
      instancesOf cfg = [] →
        configure render ev ctxOut (resolveBackendContexts cfg) fs
          = .ok (clearBackendConfigs fs, [])) ∧
      (∀ (render : String → Ctx → String) (ev : String → Ctx → Except String String)
          (ctxOut : Except String Ctx) (e : String) (fs : FS),
        strContains NO_BACKENDS_MSG e = false →
          configure render ev ctxOut (.error e) fs = .error e) := by
  constructor
  · intro render ev ctxOut cfg fs hinst
    have hres : resolveBackendContexts cfg = .error NO_BACKENDS_MSG := by
      unfold resolveBackendContexts buildBackendCtxs
      rw [hinst]
      rfl
    rw [hres]
    show (if strContains NO_BACKENDS_MSG NO_BACKENDS_MSG = true then
        Except.ok (clearBackendConfigs fs, ([] : List Template))
      else Except.error NO_BACKENDS_MSG) = Except.ok (clearBackendConfigs fs, [])
    rw [strContains_self]
    rfl
  · intro render ev ctxOut e fs hne
    show (if strContains NO_BACKENDS_MSG e = true then
        Except.ok (clearBackendConfigs fs, ([] : List Template))
      else Except.error e) = Except.error e
    rw [hne]
    rfl

/-- C4 witness. -/
theorem claim_C4_witness :
    configure (fun _ _ => "x") (fun s _ => .ok s) (.ok [])
        (resolveBackendContexts ⟨[], [], [], [], [], []⟩) []
      = .ok (clearBackendConfigs [], []) ∧
      configure (fun _ _ => "x") (fun s _ => .ok s) (.ok [])
          (.error "Invalid configuration") [] = .error "Invalid configuration" :=
  ⟨claim_C4.1 (fun _ _ => "x") (fun s _ => .ok s) (.ok []) ⟨[], [], [], [], [], []⟩ [] rfl,
    claim_C4.2 (fun _ _ => "x") (fun s _ => .ok s) (.ok []) "Invalid configuration" []
      (by decide)⟩

/-! ## C3: uniqueness validation -/

theorem scanPlain_ok_content (ty : String) (bs : List (String × PlainRec))
    (names names' : List String) (h : scanPlain ty bs names = .ok names') :
    names' = (plainNames bs).reverse ++ names := by
  induction bs generalizing names with
  | nil =>
    cases h
    simp [plainNames]
  | cons hd rest ih =>
    obtain ⟨key, b⟩ := hd
    unfold scanPlain at h
    by_cases hmem : b.volume_backend_name ∈ names
    · rw [if_pos hmem] at h
      cases h
    · rw [if_neg hmem] at h
      have := ih _ h
      simp [plainNames] at this ⊢
      simp [this, List.append_assoc]

theorem scanPlain_ok_nodup (ty : String) (bs : List (String × PlainRec))
    (names names' : List String) (h : scanPlain ty bs names = .ok names')
    (hn : names.Nodup) : names'.Nodup := by
  induction bs generalizing names with
  | nil =>
    cases h
    exact hn
  | cons hd rest ih =>
    obtain ⟨key, b⟩ := hd
    unfold scanPlain at h
    by_cases hmem : b.volume_backend_name ∈ names
    · rw [if_pos hmem] at h
      cases h
    · rw [if_neg hmem] at h
      exact ih _ h (List.nodup_cons.mpr ⟨hmem, hn⟩)

theorem scanPlain_err (ty : String) (bs : List (String × PlainRec))
    (names : List String) (msg : String) (h : scanPlain ty bs names = .error msg) :
    ∃ n key, msg = dupNameMsg n ty key
      ∧ 2 ≤ (plainNames bs).count n + names.count n := by
  induction bs generalizing names with
  | nil => cases h
  | cons hd rest ih =>
    obtain ⟨key, b⟩ := hd
    unfold scanPlain at h
    by_cases hmem : b.volume_backend_name ∈ names
    · rw [if_pos hmem] at h
      refine ⟨b.volume_backend_name, key, by cases h; rfl, ?_⟩
      have h1 : 1 ≤ names.count b.volume_backend_name :=
        List.count_pos_iff.mpr hmem
      have h2 : 1 ≤ (plainNames ((key, b) :: rest)).count b.volume_backend_name := by
        apply List.count_pos_iff.mpr
        simp [plainNames]
      omega
    · rw [if_neg hmem] at h
      obtain ⟨n, key', hmsg, hcount⟩ := ih _ h
      refine ⟨n, key', hmsg, ?_⟩
      have hc1 : (plainNames ((key, b) :: rest)).count n
          = (plainNames rest).count n
            + if b.volume_backend_name == n then 1 else 0 := by
        simp [plainNames, List.count_cons]
      have hc2 : (b.volume_backend_name :: names).count n
          = names.count n + if b.volume_backend_name == n then 1 else 0 := by
        simp [List.count_cons]
      rw [hc2] at hcount
      rw [hc1]
      omega

theorem scanPlain_ok_of_nodup (ty : String) (bs : List (String × PlainRec))
    (names : List String) (h : (plainNames bs ++ names).Nodup) :
    scanPlain ty bs names = .ok ((plainNames bs).reverse ++ names) := by
  induction bs generalizing names with
  | nil => simp [scanPlain, plainNames]
  | cons hd rest ih =>
    obtain ⟨key, b⟩ := hd
    have hn : plainNames ((key, b) :: rest)
        = b.volume_backend_name :: plainNames rest := by
      simp [plainNames]
    rw [hn] at h
    rw [List.cons_append, List.nodup_cons] at h
    have hmem : b.volume_backend_name ∉ names := fun hc =>
      h.1 (List.mem_append.mpr (Or.inr hc))
    unfold scanPlain
    rw [if_neg hmem]
    have hperm : (plainNames rest ++ b.volume_backend_name :: names).Nodup := by
      refine (List.perm_middle.symm).nodup ?_
      rw [List.nodup_cons]
      exact h
    rw [ih _ hperm, hn]
    rw [List.reverse_cons, List.append_assoc]
    rfl

theorem scanCeph_ok_content (bs : List (String × CephRec))
    (names pools names' pools' : List String)
    (h : scanCeph bs names pools = .ok (names', pools')) :
    names' = (cephNames bs).reverse ++ names
      ∧ pools' = (cephPoolsOf bs).reverse ++ pools := by
  induction bs generalizing names pools with
  | nil =>
    cases h
    simp [cephNames, cephPoolsOf]
  | cons hd rest ih =>
    obtain ⟨key, b⟩ := hd
    unfold scanCeph at h
    by_cases hmem : b.volume_backend_name ∈ names
    · rw [if_pos hmem] at h
      cases h
    · rw [if_neg hmem] at h
      by_cases hpool : b.rbd_pool ∈ pools
      · rw [if_pos hpool] at h
        cases h
      · rw [if_neg hpool] at h
        obtain ⟨h1, h2⟩ := ih _ _ h
        constructor
        · simp [cephNames] at h1 ⊢
          simp [h1, List.append_assoc]
        · simp [cephPoolsOf] at h2 ⊢
          simp [h2, List.append_assoc]

theorem scanCeph_ok_nodup (bs : List (String × CephRec))
    (names pools names' pools' : List String)
    (h : scanCeph bs names pools = .ok (names', pools'))
    (hn : names.Nodup) (hp : pools.Nodup) : names'.Nodup ∧ pools'.Nodup := by
  induction bs generalizing names pools with
  | nil =>
    cases h
    exact ⟨hn, hp⟩
  | cons hd rest ih =>
    obtain ⟨key, b⟩ := hd
    unfold scanCeph at h
    by_cases hmem : b.volume_backend_name ∈ names
    · rw [if_pos hmem] at h
      cases h
    · rw [if_neg hmem] at h
      by_cases hpool : b.rbd_pool ∈ pools
      · rw [if_pos hpool] at h
        cases h
      · rw [if_neg hpool] at h
        exact ih _ _ h (List.nodup_cons.mpr ⟨hmem, hn⟩)
          (List.nodup_cons.mpr ⟨hpool, hp⟩)

theorem scanCeph_err (bs : List (String × CephRec))
    (names pools : List String) (msg : String)
    (h : scanCeph bs names pools = .error msg) :
    (∃ n key, msg = dupNameMsg n "ceph" key
        ∧ 2 ≤ (cephNames bs).count n + names.count n)
      ∨ (∃ p key, msg = dupPoolMsg p key
        ∧ 2 ≤ (cephPoolsOf bs).count p + pools.count p) := by
  induction bs generalizing names pools with
  | nil => cases h
  | cons hd rest ih =>
    obtain ⟨key, b⟩ := hd
    unfold scanCeph at h
    by_cases hmem : b.volume_backend_name ∈ names
    · rw [if_pos hmem] at h
      left
      refine ⟨b.volume_backend_name, key, by cases h; rfl, ?_⟩
      have h1 : 1 ≤ names.count b.volume_backend_name :=
        List.count_pos_iff.mpr hmem
      have h2 : 1 ≤ (cephNames ((key, b) :: rest)).count b.volume_backend_name := by
        apply List.count_pos_iff.mpr
        simp [cephNames]
      omega
    · rw [if_neg hmem] at h
      by_cases hpool : b.rbd_pool ∈ pools
      · rw [if_pos hpool] at h
        right
        refine ⟨b.rbd_pool, key, by cases h; rfl, ?_⟩
        have h1 : 1 ≤ pools.count b.rbd_pool := List.count_pos_iff.mpr hpool
        have h2 : 1 ≤ (cephPoolsOf ((key, b) :: rest)).count b.rbd_pool := by
          apply List.count_pos_iff.mpr
          simp [cephPoolsOf]
        omega
      · rw [if_neg hpool] at h
        rcases ih _ _ h with ⟨n, key', hmsg, hcount⟩ | ⟨p, key', hmsg, hcount⟩
        · left
          refine ⟨n, key', hmsg, ?_⟩
          have hc1 : (cephNames ((key, b) :: rest)).count n
              = (cephNames rest).count n
                + if b.volume_backend_name == n then 1 else 0 := by
            simp [cephNames, List.count_cons]
          have hc2 : (b.volume_backend_name :: names).count n
              = names.count n + if b.volume_backend_name == n then 1 else 0 := by
            simp [List.count_cons]
          rw [hc2] at hcount
          rw [hc1]
          omega
        · right
          refine ⟨p, key', hmsg, ?_⟩
          have hc1 : (cephPoolsOf ((key, b) :: rest)).count p
              = (cephPoolsOf rest).count p
                + if b.rbd_pool == p then 1 else 0 := by
            simp [cephPoolsOf, List.count_cons]
          have hc2 : (b.rbd_pool :: pools).count p
              = pools.count p + if b.rbd_pool == p then 1 else 0 := by
            simp [List.count_cons]
          rw [hc2] at hcount
          rw [hc1]
          omega

theorem scanCeph_ok_of_nodup (bs : List (String × CephRec))
    (names pools : List String) (h : (cephNames bs ++ names).Nodup)
    (hp : (cephPoolsOf bs ++ pools).Nodup) :
    scanCeph bs names pools
      = .ok ((cephNames bs).reverse ++ names, (cephPoolsOf bs).reverse ++ pools) := by
  induction bs generalizing names pools with
  | nil => simp [scanCeph, cephNames, cephPoolsOf]
  | cons hd rest ih =>
    obtain ⟨key, b⟩ := hd
    have hn : cephNames ((key, b) :: rest)
        = b.volume_backend_name :: cephNames rest := by
      simp [cephNames]
    have hq : cephPoolsOf ((key, b) :: rest) = b.rbd_pool :: cephPoolsOf rest := by
      simp [cephPoolsOf]
    rw [hn] at h
    rw [hq] at hp
    rw [List.cons_append, List.nodup_cons] at h
    rw [List.cons_append, List.nodup_cons] at hp
    have hmem : b.volume_backend_name ∉ names := fun hc =>
      h.1 (List.mem_append.mpr (Or.inr hc))
    have hpool : b.rbd_pool ∉ pools := fun hc =>
      hp.1 (List.mem_append.mpr (Or.inr hc))
    unfold scanCeph
    rw [if_neg hmem, if_neg hpool]
    have hperm1 : (cephNames rest ++ b.volume_backend_name :: names).Nodup := by
      refine (List.perm_middle.symm).nodup ?_
      rw [List.nodup_cons]
      exact h
    have hperm2 : (cephPoolsOf rest ++ b.rbd_pool :: pools).Nodup := by
      refine (List.perm_middle.symm).nodup ?_
      rw [List.nodup_cons]
      exact hp
    rw [ih _ _ hperm1 hperm2, hn, hq]
    rw [List.reverse_cons, List.reverse_cons, List.append_assoc, List.append_assoc]
    rfl

theorem validate_ok_of_nodup (cfg : Cfg)
    (hn : (allBackendNames cfg).Nodup) (hp : (allCephPools cfg).Nodup) :
    validateUniqueBackendNames cfg = .ok cfg := by
  have hcount := List.nodup_iff_count_le_one.mp hn
  simp only [allBackendNames, List.count_append] at hcount
  have h1 : scanCeph cfg.ceph [] []
      = .ok ((cephNames cfg.ceph).reverse ++ [],
        (cephPoolsOf cfg.ceph).reverse ++ []) := by
    apply scanCeph_ok_of_nodup
    · rw [List.nodup_iff_count_le_one]
      intro a
      have := hcount a
      simp [List.count_append]
      omega
    · simpa [allCephPools] using hp
  have h2 : scanPlain "lvm" cfg.lvm ((cephNames cfg.ceph).reverse ++ [])
      = .ok ((plainNames cfg.lvm).reverse ++ ((cephNames cfg.ceph).reverse ++ [])) := by
    apply scanPlain_ok_of_nodup
    rw [List.nodup_iff_count_le_one]
    intro a
    have := hcount a
    simp [List.count_append, List.count_reverse]
    omega
  have h3 : scanPlain "hitachi" cfg.hitachi
        ((plainNames cfg.lvm).reverse ++ ((cephNames cfg.ceph).reverse ++ []))
      = .ok ((plainNames cfg.hitachi).reverse
        ++ ((plainNames cfg.lvm).reverse ++ ((cephNames cfg.ceph).reverse ++ []))) := by
    apply scanPlain_ok_of_nodup
    rw [List.nodup_iff_count_le_one]
    intro a
    have := hcount a
    simp [List.count_append, List.count_reverse]
    omega
  have h4 : scanPlain "pure" cfg.pureB
        ((plainNames cfg.hitachi).reverse
          ++ ((plainNames cfg.lvm).reverse ++ ((cephNames cfg.ceph).reverse ++ [])))
      = .ok ((plainNames cfg.pureB).reverse ++ ((plainNames cfg.hitachi).reverse
        ++ ((plainNames cfg.lvm).reverse ++ ((cephNames cfg.ceph).reverse ++ [])))) := by
    apply scanPlain_ok_of_nodup
    rw [List.nodup_iff_count_le_one]
    intro a
    have := hcount a
    simp [List.count_append, List.count_reverse]
    omega
  have h5 : scanPlain "dellsc" cfg.dellsc
        ((plainNames cfg.pureB).reverse ++ ((plainNames cfg.hitachi).reverse
          ++ ((plainNames cfg.lvm).reverse ++ ((cephNames cfg.ceph).reverse ++ []))))
      = .ok ((plainNames cfg.dellsc).reverse
        ++ ((plainNames cfg.pureB).reverse ++ ((plainNames cfg.hitachi).reverse
          ++ ((plainNames cfg.lvm).reverse ++ ((cephNames cfg.ceph).reverse ++ []))))) := by
    apply scanPlain_ok_of_nodup
    rw [List.nodup_iff_count_le_one]
    intro a
    have := hcount a
    simp [List.count_append, List.count_reverse]
    omega
  have h6 : scanPlain "dellpowerstore" cfg.dellpowerstore
        ((plainNames cfg.dellsc).reverse
          ++ ((plainNames cfg.pureB).reverse ++ ((plainNames cfg.hitachi).reverse
            ++ ((plainNames cfg.lvm).reverse ++ ((cephNames cfg.ceph).reverse ++ [])))))
      = .ok ((plainNames cfg.dellpowerstore).reverse
        ++ ((plainNames cfg.dellsc).reverse
          ++ ((plainNames cfg.pureB).reverse ++ ((plainNames cfg.hitachi).reverse
            ++ ((plainNames cfg.lvm).reverse
              ++ ((cephNames cfg.ceph).reverse ++ [])))))) := by
    apply scanPlain_ok_of_nodup
    rw [List.nodup_iff_count_le_one]
    intro a
    have := hcount a
    simp [List.count_append, List.count_reverse]
    omega
  simp only [validateUniqueBackendNames, h1, h2, h3, h4, h5, h6]

theorem validate_ok_nodup (cfg : Cfg) (c : Cfg)
    (h : validateUniqueBackendNames cfg = .ok c) :
    (allBackendNames cfg).Nodup ∧ (allCephPools cfg).Nodup := by
  unfold validateUniqueBackendNames at h
  cases e1 : scanCeph cfg.ceph [] [] with
  | error msg =>
    simp only [e1] at h
    cases h
  | ok np =>
    obtain ⟨n1, p1⟩ := np
    simp only [e1] at h
    obtain ⟨hc1, hp1⟩ := scanCeph_ok_content _ _ _ _ _ e1
    obtain ⟨hnd1, hpd1⟩ := scanCeph_ok_nodup _ _ _ _ _ e1 List.nodup_nil List.nodup_nil
    cases e2 : scanPlain "lvm" cfg.lvm n1 with
    | error msg =>
      simp only [e2] at h
      cases h
    | ok n2 =>
      simp only [e2] at h
      have hc2 := scanPlain_ok_content _ _ _ _ e2
      have hnd2 := scanPlain_ok_nodup _ _ _ _ e2 hnd1
      cases e3 : scanPlain "hitachi" cfg.hitachi n2 with
      | error msg =>
        simp only [e3] at h
        cases h
      | ok n3 =>
        simp only [e3] at h
        have hc3 := scanPlain_ok_content _ _ _ _ e3
        have hnd3 := scanPlain_ok_nodup _ _ _ _ e3 hnd2
        cases e4 : scanPlain "pure" cfg.pureB n3 with
        | error msg =>
          simp only [e4] at h
          cases h
        | ok n4 =>
          simp only [e4] at h
          have hc4 := scanPlain_ok_content _ _ _ _ e4
          have hnd4 := scanPlain_ok_nodup _ _ _ _ e4 hnd3
          cases e5 : scanPlain "dellsc" cfg.dellsc n4 with
          | error msg =>
            simp only [e5] at h
            cases h
          | ok n5 =>
            simp only [e5] at h
            have hc5 := scanPlain_ok_content _ _ _ _ e5
            have hnd5 := scanPlain_ok_nodup _ _ _ _ e5 hnd4
            cases e6 : scanPlain "dellpowerstore" cfg.dellpowerstore n5 with
            | error msg =>
              simp only [e6] at h
              cases h
            | ok n6 =>
              have hc6 := scanPlain_ok_content _ _ _ _ e6
              have hnd6 := scanPlain_ok_nodup _ _ _ _ e6 hnd5
              constructor
              · rw [List.nodup_iff_count_le_one]
                intro a
                have hfin := List.nodup_iff_count_le_one.mp hnd6 a
                rw [hc6, hc5, hc4, hc3, hc2, hc1] at hfin
                simp only [List.count_append, List.count_reverse] at hfin
                simp only [allBackendNames, List.count_append]
                omega
              · rw [hp1] at hpd1
                simp only [List.append_nil] at hpd1
                rw [allCephPools, ← List.nodup_reverse]
                exact hpd1

theorem validate_err_naming (cfg : Cfg) (msg : String)
    (h : validateUniqueBackendNames cfg = .error msg) :
    (∃ n key ty, msg = dupNameMsg n ty key ∧ 2 ≤ (allBackendNames cfg).count n)
      ∨ (∃ p key, msg = dupPoolMsg p key ∧ 2 ≤ (allCephPools cfg).count p) := by
  unfold validateUniqueBackendNames at h
  cases e1 : scanCeph cfg.ceph [] [] with
  | error m =>
    simp only [e1] at h
    cases h
    rcases scanCeph_err _ _ _ _ e1 with ⟨n, key, hmsg, hcnt⟩ | ⟨p, key, hmsg, hcnt⟩
    · left
      refine ⟨n, key, "ceph", hmsg, ?_⟩
      simp only [List.count_nil] at hcnt
      simp only [allBackendNames, List.count_append]
      omega
    · right
      refine ⟨p, key, hmsg, ?_⟩
      simp only [List.count_nil] at hcnt
      simp only [allCephPools]
      omega
  | ok np =>
    obtain ⟨n1, p1⟩ := np
    simp only [e1] at h
    obtain ⟨hc1, _⟩ := scanCeph_ok_content _ _ _ _ _ e1
    cases e2 : scanPlain "lvm" cfg.lvm n1 with
    | error m =>
      simp only [e2] at h
      cases h
      obtain ⟨n, key, hmsg, hcnt⟩ := scanPlain_err _ _ _ _ e2
      left
      refine ⟨n, key, "lvm", hmsg, ?_⟩
      rw [hc1] at hcnt
      simp only [List.count_append, List.count_reverse, List.count_nil] at hcnt
      simp only [allBackendNames, List.count_append]
      omega
    | ok n2 =>
      simp only [e2] at h
      have hc2 := scanPlain_ok_content _ _ _ _ e2
      cases e3 : scanPlain "hitachi" cfg.hitachi n2 with
      | error m =>
        simp only [e3] at h
        cases h
        obtain ⟨n, key, hmsg, hcnt⟩ := scanPlain_err _ _ _ _ e3
        left
        refine ⟨n, key, "hitachi", hmsg, ?_⟩
        rw [hc2, hc1] at hcnt
        simp only [List.count_append, List.count_reverse, List.count_nil] at hcnt
        simp only [allBackendNames, List.count_append]
        omega
      | ok n3 =>
        simp only [e3] at h
        have hc3 := scanPlain_ok_content _ _ _ _ e3
        cases e4 : scanPlain "pure" cfg.pureB n3 with
        | error m =>
          simp only [e4] at h
          cases h
          obtain ⟨n, key, hmsg, hcnt⟩ := scanPlain_err _ _ _ _ e4
          left
          refine ⟨n, key, "pure", hmsg, ?_⟩
          rw [hc3, hc2, hc1] at hcnt
          simp only [List.count_append, List.count_reverse, List.count_nil] at hcnt
          simp only [allBackendNames, List.count_append]
          omega
        | ok n4 =>
          simp only [e4] at h
          have hc4 := scanPlain_ok_content _ _ _ _ e4
          cases e5 : scanPlain "dellsc" cfg.dellsc n4 with
          | error m =>
            simp only [e5] at h
            cases h
            obtain ⟨n, key, hmsg, hcnt⟩ := scanPlain_err _ _ _ _ e5
            left
            refine ⟨n, key, "dellsc", hmsg, ?_⟩
            rw [hc4, hc3, hc2, hc1] at hcnt
            simp only [List.count_append, List.count_reverse, List.count_nil] at hcnt
            simp only [allBackendNames, List.count_append]
            omega
          | ok n5 =>
            simp only [e5] at h
            have hc5 := scanPlain_ok_content _ _ _ _ e5
            cases e6 : scanPlain "dellpowerstore" cfg.dellpowerstore n5 with
            | error m =>
              simp only [e6] at h
              cases h
              obtain ⟨n, key, hmsg, hcnt⟩ := scanPlain_err _ _ _ _ e6
              left
              refine ⟨n, key, "dellpowerstore", hmsg, ?_⟩
              rw [hc5, hc4, hc3, hc2, hc1] at hcnt
              simp only [List.count_append, List.count_reverse, List.count_nil] at hcnt
              simp only [allBackendNames, List.count_append]
              omega
            | ok n6 =>
              simp only [e6] at h
              cases h

/-- C3: a document in which two backend records (of any kinds) share a
`volume_backend_name`, or two Ceph records share an `rbd_pool`, fails the
whole-document validation with an error message naming the duplicated
identifier, and no validated configuration object is produced. -/
theorem claim_C3 (cfg : Cfg)
    (h : ¬(allBackendNames cfg).Nodup ∨ ¬(allCephPools cfg).Nodup) :
    (∃ msg, validateUniqueBackendNames cfg = .error msg ∧
        ((∃ n key ty, msg = dupNameMsg n ty key
            ∧ 2 ≤ (allBackendNames cfg).count n)
          ∨ (∃ p key, msg = dupPoolMsg p key
            ∧ 2 ≤ (allCephPools cfg).count p))) ∧
      ∀ c, validateUniqueBackendNames cfg ≠ .ok c := by
  cases hv : validateUniqueBackendNames cfg with
  | ok c =>
    obtain ⟨hn, hp⟩ := validate_ok_nodup cfg c hv
    rcases h with h | h
    · exact absurd hn h
    · exact absurd hp h
  | error msg =>
    refine ⟨⟨msg, rfl, validate_err_naming cfg msg hv⟩, ?_⟩
    intro c hc
    cases hc

/-- C3 witness: two Ceph records with the same backend-name. -/
theorem claim_C3_witness :
    (∃ msg, validateUniqueBackendNames
          ⟨[("a", ⟨"n", "p1", []⟩), ("b", ⟨"n", "p2", []⟩)], [], [], [], [], []⟩
        = .error msg ∧
        ((∃ n key ty, msg = dupNameMsg n ty key
            ∧ 2 ≤ (allBackendNames
              ⟨[("a", ⟨"n", "p1", []⟩), ("b", ⟨"n", "p2", []⟩)],
                [], [], [], [], []⟩).count n)
          ∨ (∃ p key, msg = dupPoolMsg p key
            ∧ 2 ≤ (allCephPools
              ⟨[("a", ⟨"n", "p1", []⟩), ("b", ⟨"n", "p2", []⟩)],
                [], [], [], [], []⟩).count p))) ∧
      ∀ c, validateUniqueBackendNames
          ⟨[("a", ⟨"n", "p1", []⟩), ("b", ⟨"n", "p2", []⟩)], [], [], [], [], []⟩
        ≠ .ok c :=
  claim_C3 ⟨[("a", ⟨"n", "p1", []⟩), ("b", ⟨"n", "p2", []⟩)], [], [], [], [], []⟩
    (Or.inl (by decide))

/-! ## C5: context count -/

theorem foldlUpsert_length (l acc : List (String × Backend))
    (h : (keysA acc ++ keysA l).Nodup) :
    (l.foldl (fun acc kb => upsert acc kb.1 kb.2) acc).length
      = acc.length + l.length := by
  induction l generalizing acc with
  | nil => simp
  | cons hd rest ih =>
    obtain ⟨k, b⟩ := hd
    have hk : k ∉ keysA acc := by
      intro hmem
      rcases List.nodup_append.mp h with ⟨_, _, hdisj⟩
      exact hdisj hmem (by simp)
    rw [List.foldl_cons]
    have hup : upsert acc k b = acc ++ [(k, b)] := upsert_append_of_not_mem _ _ _ hk
    rw [hup]
    have hnodup2 : (keysA (acc ++ [(k, b)]) ++ keysA rest).Nodup := by
      have hkeys : keysA (acc ++ [(k, b)]) = keysA acc ++ [k] := by
        simp [keysA]
      rw [hkeys, List.append_assoc]
      simpa using h
    have := ih _ hnodup2
    rw [this]
    simp
    omega

/-- C5 counterexample: two enabled instances (one Ceph, one LVM) with
distinct backend-names but the same instance key — validation succeeds, yet
the registry dict keyed by instance key holds only one context, not two. -/
theorem claim_C5_counterexample :
    validateUniqueBackendNames
        ⟨[("a", ⟨"n1", "p1", []⟩)], [("a", ⟨"n2", []⟩)], [], [], [], []⟩
      = .ok ⟨[("a", ⟨"n1", "p1", []⟩)], [("a", ⟨"n2", []⟩)], [], [], [], []⟩ ∧
      (instancesOf
        ⟨[("a", ⟨"n1", "p1", []⟩)], [("a", ⟨"n2", []⟩)], [], [], [], []⟩).length = 2 ∧
      (buildBackendCtxs
        ⟨[("a", ⟨"n1", "p1", []⟩)], [("a", ⟨"n2", []⟩)], [], [], [], []⟩).length = 1 :=
  ⟨rfl, rfl, rfl⟩

/-- C5 (amended): for a document with N ≥ 1 enabled instances whose
backend-names (and Ceph pools) are pairwise distinct and whose instance keys
are pairwise distinct across kinds, validation succeeds and the
backend-context registry yields exactly N contexts. -/
theorem claim_C5 (cfg : Cfg)
    (hN : 1 ≤ (instancesOf cfg).length)
    (hnames : (allBackendNames cfg).Nodup)
    (hpools : (allCephPools cfg).Nodup)
    (hkeys : (keysA (instancesOf cfg)).Nodup) :
    validateUniqueBackendNames cfg = .ok cfg ∧
      (buildBackendCtxs cfg).length = (instancesOf cfg).length ∧
      ∃ bs, resolveBackendContexts cfg = .ok bs
        ∧ bs.length = (instancesOf cfg).length := by
  have hbuild : (buildBackendCtxs cfg).length = (instancesOf cfg).length := by
    unfold buildBackendCtxs
    have := foldlUpsert_length (instancesOf cfg) [] (by simpa using hkeys)
    simpa using this
  refine ⟨validate_ok_of_nodup cfg hnames hpools, hbuild, ?_⟩
  refine ⟨(buildBackendCtxs cfg).map Prod.snd, ?_, by simp [hbuild]⟩
  have hne : (keysA (buildBackendCtxs cfg)).isEmpty = false := by
    have hlen : 1 ≤ (buildBackendCtxs cfg).length := by omega
    cases hb : buildBackendCtxs cfg with
    | nil =>
      rw [hb] at hlen
      simp at hlen
    | cons a l =>
      obtain ⟨k, v⟩ := a
      simp [keysA]
  have hmiss : (keysA (buildBackendCtxs cfg)).filter
      (fun n => !(keysA (buildBackendCtxs cfg)).contains n) = [] := by
    rw [List.filter_eq_nil_iff]
    intro a ha
    simpa using ha
  unfold resolveBackendContexts mkCinderBackendContexts
  rw [hne, hmiss]
  rfl

/-- C5 witness. -/
theorem claim_C5_witness :
    validateUniqueBackendNames ⟨[], [], [], [("p1", ⟨"pn", []⟩)], [], []⟩
        = .ok ⟨[], [], [], [("p1", ⟨"pn", []⟩)], [], []⟩ ∧
      (buildBackendCtxs ⟨[], [], [], [("p1", ⟨"pn", []⟩)], [], []⟩).length
        = (instancesOf ⟨[], [], [], [("p1", ⟨"pn", []⟩)], [], []⟩).length ∧
      ∃ bs, resolveBackendContexts ⟨[], [], [], [("p1", ⟨"pn", []⟩)], [], []⟩ = .ok bs
        ∧ bs.length = (instancesOf ⟨[], [], [], [("p1", ⟨"pn", []⟩)], [], []⟩).length :=
  claim_C5 ⟨[], [], [], [("p1", ⟨"pn", []⟩)], [], []⟩
    (by decide) (by decide) (by decide) (by decide)

/-! ## C6: context-derivation failure containment -/

/-- C6 counterexample: a malformed embedded template expression inside a
backend's field values makes the substitution
(`_render_specific_backend_configs`) fail, and that call sits outside the
`try/except` guarding `render_context` — the error propagates out of the
render step (and out of `configure`) instead of being caught, contradicting
the claim that such a failure is contained and the run does not crash. -/
theorem claim_C6_counterexample :
    templateRun (fun _ _ => "x")
        (fun s _ => if s = "\x7b\x7b bad" then Except.error "TemplateSyntaxError"
          else .ok s)
        (.ok []) [⟨"a", BKind.pureK, [("opt", Val.str "\x7b\x7b bad")]⟩] []
      = .error "TemplateSyntaxError" ∧
      configure (fun _ _ => "x")
        (fun s _ => if s = "\x7b\x7b bad" then Except.error "TemplateSyntaxError"
          else .ok s)
        (.ok []) (.ok [⟨"a", BKind.pureK, [("opt", Val.str "\x7b\x7b bad")]⟩]) []
      = .error "TemplateSyntaxError" :=
  ⟨rfl, rfl⟩

/-- C6 (amended): a failure while deriving the base render context
(`render_context`) is caught and logged inside the render step, which then
contributes nothing to the modified set and does not crash; but a failure of
the embedded-expression substitution of the backend aggregate happens outside
that guard and propagates. -/
theorem claim_C6 :
    (∀ (render : String → Ctx → String) (ev : String → Ctx → Except String String)
        (e : String) (backends : List Backend) (fs : FS),
      templateRun render ev (.error e) backends fs = .ok (fs, [])) ∧
      (∀ (render : String → Ctx → String) (ev : String → Ctx → Except String String)
          (ctx0 : Ctx) (backends : List Backend) (fs : FS) (err : String),
        renderSpecific ev ctx0 (Val.dict (aggregateContext backends)) = .error err →
          templateRun render ev (.ok ctx0) backends fs = .error err) := by
  constructor
  · intro render ev e backends fs
    rfl
  · intro render ev ctx0 backends fs err h
    show (match renderSpecific ev ctx0 (Val.dict (aggregateContext backends)) with
      | Except.error e => Except.error e
      | Except.ok agg =>
        Except.ok (processJobs render
          (renderJobs (upsert ctx0 "cinder_backends" agg) backends) fs))
      = Except.error err
    rw [h]

/-- C6 witness. -/
theorem claim_C6_witness :
    templateRun (fun _ _ => "x") (fun _ _ => Except.error "boom")
        (.error "Invalid configuration")
        [⟨"b", BKind.lvm, []⟩] [] = .ok ([], []) ∧
      templateRun (fun _ _ => "x") (fun _ _ => Except.error "boom") (.ok [])
        [⟨"b", BKind.lvm, []⟩] [] = .error "boom" :=
  ⟨claim_C6.1 (fun _ _ => "x") (fun _ _ => Except.error "boom")
      "Invalid configuration" [⟨"b", BKind.lvm, []⟩] [],
    claim_C6.2 (fun _ _ => "x") (fun _ _ => Except.error "boom") []
      [⟨"b", BKind.lvm, []⟩] [] "boom" rfl⟩

/-! ## C1: idempotence of the configure/render run -/

/-- The destination path of one render pass. -/
def jobDest (j : Ctx × Template) : String := relPath j.2

/-- What one render pass leaves at its destination: the normalized rendered
output when the conditionals pass, nothing when they fail (the file is
removed). -/
def expectedContent (render : String → Ctx → String) (j : Ctx × Template) :
    Option String :=
  if j.2.conditionals.all (fun c => c j.1) then
    some (normalizeRendered (render (logicalName j.2) j.1))
  else none

theorem guard_false_all (l : List (Ctx → Bool)) (ctx : Ctx)
    (h : (!l.isEmpty && !(l.all (fun c => c ctx))) = false) :
    l.all (fun c => c ctx) = true := by
  cases l with
  | nil => rfl
  | cons c cs =>
    cases hall : (c :: cs).all (fun x => x ctx) with
    | false =>
      rw [hall] at h
      simp [List.isEmpty_cons] at h
    | true => rfl

theorem processTemplate_lookup_self (render : String → Ctx → String) (ctx : Ctx)
    (t : Template) (fs : FS) :
    lookupA (processTemplate render ctx t fs).1 (relPath t)
      = expectedContent render (ctx, t) := by
  unfold processTemplate expectedContent
  by_cases hg : (!t.conditionals.isEmpty && !(t.conditionals.all (fun c => c ctx))) = true
  · rw [if_pos hg]
    have hallf : t.conditionals.all (fun c => c ctx) = false := by
      cases hall : t.conditionals.all (fun c => c ctx) with
      | false => rfl
      | true =>
        rw [hall] at hg
        simp at hg
    rw [hallf]
    exact lookupA_eraseFile_self fs (relPath t)
  · rw [if_neg hg]
    have hallt := guard_false_all t.conditionals ctx (by simpa using hg)
    rw [hallt]
    by_cases he : lookupA fs (relPath t)
        = some (normalizeRendered (render (logicalName t) ctx))
    · rw [if_pos he]
      exact he
    · rw [if_neg he]
      exact lookupA_upsert_self _ _ _

theorem processTemplate_lookup_ne (render : String → Ctx → String) (ctx : Ctx)
    (t : Template) (fs : FS) (q : String) (h : q ≠ relPath t) :
    lookupA (processTemplate render ctx t fs).1 q = lookupA fs q := by
  unfold processTemplate
  split
  · exact lookupA_eraseFile_ne fs _ q h
  · split
    · rfl
    · exact lookupA_upsert_ne _ _ _ _ (Ne.symm h)

theorem processTemplate_stable (render : String → Ctx → String) (ctx : Ctx)
    (t : Template) (fs : FS)
    (h : lookupA fs (relPath t) = expectedContent render (ctx, t)) :
    processTemplate render ctx t fs = (fs, false) := by
  unfold processTemplate
  unfold expectedContent at h
  by_cases hg : (!t.conditionals.isEmpty && !(t.conditionals.all (fun c => c ctx))) = true
  · rw [if_pos hg]
    have hallf : t.conditionals.all (fun c => c ctx) = false := by
      cases hall : t.conditionals.all (fun c => c ctx) with
      | false => rfl
      | true =>
        rw [hall] at hg
        simp at hg
    rw [hallf] at h
    simp only [Bool.false_eq_true, if_false] at h
    rw [eraseFile_of_lookup_none fs _ h]
  · rw [if_neg hg]
    have hallt := guard_false_all t.conditionals ctx (by simpa using hg)
    rw [hallt] at h
    simp only [if_true] at h
    rw [if_pos h]

theorem processTemplate_rewrite (render : String → Ctx → String) (ctx : Ctx)
    (t : Template) (fs : FS) (hlook : lookupA fs (relPath t) = none)
    (hconds : t.conditionals = []) :
    processTemplate render ctx t fs
      = (upsert fs (relPath t) (normalizeRendered (render (logicalName t) ctx)),
        true) := by
  unfold processTemplate
  rw [hconds]
  simp only [List.isEmpty_nil, Bool.not_true, Bool.false_and, Bool.false_eq_true,
    if_false]
  rw [hlook]
  simp

theorem processJobs_lookup_not_mem (render : String → Ctx → String) :
    ∀ (js : List (Ctx × Template)) (fs : FS) (q : String),
      (∀ j ∈ js, q ≠ jobDest j) →
      lookupA (processJobs render js fs).1 q = lookupA fs q := by
  intro js
  induction js with
  | nil =>
    intro fs q _
    rfl
  | cons j0 rest ih =>
    intro fs q h
    obtain ⟨ctx, t⟩ := j0
    show lookupA (processJobs render rest (processTemplate render ctx t fs).1).1 q
      = lookupA fs q
    rw [ih _ q (fun j hj => h j (List.mem_cons.mpr (Or.inr hj)))]
    exact processTemplate_lookup_ne render ctx t fs q
      (h (ctx, t) (List.mem_cons_self _ _))

theorem processJobs_lookup_mem (render : String → Ctx → String) :
    ∀ (js : List (Ctx × Template)) (fs : FS) (j : Ctx × Template),
      j ∈ js → (js.map jobDest).Nodup →
      lookupA (processJobs render js fs).1 (jobDest j) = expectedContent render j := by
  intro js
  induction js with
  | nil =>
    intro fs j hj _
    cases hj
  | cons j0 rest ih =>
    intro fs j hj hnd
    obtain ⟨ctx, t⟩ := j0
    rw [List.map_cons, List.nodup_cons] at hnd
    rcases List.mem_cons.mp hj with heq | hmem
    · subst heq
      show lookupA (processJobs render rest (processTemplate render ctx t fs).1).1
        (jobDest (ctx, t)) = expectedContent render (ctx, t)
      rw [processJobs_lookup_not_mem render rest _ _ ?notmem]
      · exact processTemplate_lookup_self render ctx t fs
      case notmem =>
        intro j' hj' hcontra
        apply hnd.1
        rw [hcontra]
        exact List.mem_map_of_mem _ hj'
    · exact ih _ j hmem hnd.2

theorem processJobs_modified (render : String → Ctx → String) :
    ∀ (js : List (Ctx × Template)) (fs : FS),
      (js.map jobDest).Nodup →
      (∀ j ∈ js, if isBackendConfFile (jobDest j) then
          (lookupA fs (jobDest j) = none ∧ j.2.conditionals = [])
        else lookupA fs (jobDest j) = expectedContent render j) →
      (processJobs render js fs).2
        = (js.filter (fun j => isBackendConfFile (jobDest j))).map Prod.snd := by
  intro js
  induction js with
  | nil =>
    intro fs _ _
    rfl
  | cons j0 rest ih =>
    intro fs hnd H
    obtain ⟨ctx, t⟩ := j0
    rw [List.map_cons, List.nodup_cons] at hnd
    have H0 := H (ctx, t) (List.mem_cons_self _ _)
    by_cases hb : isBackendConfFile (jobDest (ctx, t)) = true
    · rw [if_pos hb] at H0
      obtain ⟨hlook, hconds⟩ := H0
      have hstep := processTemplate_rewrite render ctx t fs hlook hconds
      show (if (processTemplate render ctx t fs).2 then
          t :: (processJobs render rest (processTemplate render ctx t fs).1).2
        else (processJobs render rest (processTemplate render ctx t fs).1).2)
        = (((ctx, t) :: rest).filter
            (fun j => isBackendConfFile (jobDest j))).map Prod.snd
      rw [List.filter_cons]
      simp only [hstep, hb, if_true, List.map_cons]
      congr 1
      apply ih
      · exact hnd.2
      · intro j hj
        have hne : jobDest j ≠ relPath t := by
          intro hcontra
          apply hnd.1
          have heq : jobDest (ctx, t) = jobDest j := hcontra.symm
          rw [heq]
          exact List.mem_map_of_mem _ hj
        have hpres : lookupA (upsert fs (relPath t)
              (normalizeRendered (render (logicalName t) ctx))) (jobDest j)
            = lookupA fs (jobDest j) :=
          lookupA_upsert_ne _ _ _ _ (Ne.symm hne)
        have := H j (List.mem_cons.mpr (Or.inr hj))
        by_cases hbj : isBackendConfFile (jobDest j) = true
        · rw [if_pos hbj] at this ⊢
          exact ⟨by rw [hpres]; exact this.1, this.2⟩
        · rw [if_neg hbj] at this ⊢
          rw [hpres]
          exact this
    · rw [if_neg hb] at H0
      have hb' : isBackendConfFile (jobDest (ctx, t)) = false := by
        simpa using hb
      have hstep := processTemplate_stable render ctx t fs H0
      show (if (processTemplate render ctx t fs).2 then
          t :: (processJobs render rest (processTemplate render ctx t fs).1).2
        else (processJobs render rest (processTemplate render ctx t fs).1).2)
        = (((ctx, t) :: rest).filter
            (fun j => isBackendConfFile (jobDest j))).map Prod.snd
      rw [List.filter_cons]
      simp only [hstep, hb', Bool.false_eq_true, if_false]
      apply ih
      · exact hnd.2
      · intro j hj
        exact H j (List.mem_cons.mpr (Or.inr hj))

theorem isBCF_etcceph (x : String) :
    isBackendConfFile ("etc/ceph" ++ "/" ++ x) = false := by
  show isBackendConfFile ("etc/ceph/" ++ x) = false
  exact isBackendConfFile_cephPath x

theorem isBCF_frag_template (key : String) :
    isBackendConfFile (relPath (backendConfTemplate key)) = true := by
  rw [relPath_backendConf]
  exact isBackendConfFile_fragPath key

theorem isBCF_pem_template (key : String) :
    isBackendConfFile (relPath (backendPemTemplate key)) = false := by
  rw [relPath_backendPem]
  exact isBackendConfFile_backendPemPath key

theorem isBCF_ceph_conf_template (key : String) :
    isBackendConfFile (relPath
      (⟨cephConf key, "etc/ceph", 420, some "ceph.conf.j2", []⟩ : Template)) = false := by
  show isBackendConfFile ("etc/ceph" ++ "/" ++ removeJ2Suffix (cephConf key)) = false
  exact isBCF_etcceph _

theorem isBCF_ceph_keyring_template (key : String) :
    isBackendConfFile (relPath
      (⟨cephKeyring key, "etc/ceph", 384, some "ceph.client.keyring.j2", []⟩
        : Template)) = false := by
  show isBackendConfFile ("etc/ceph" ++ "/" ++ removeJ2Suffix (cephKeyring key)) = false
  exact isBCF_etcceph _

theorem isBCF_hitachi_mirror_template (key : String) :
    isBackendConfFile (relPath
      (⟨key ++ "_mirror.pem", ETC_CINDER_D_CONF_DIR, 420,
        some "hitachi_backend.pem.j2",
        [backendVariableSet key ["hitachi_mirror_ssl_cert_path"]]⟩ : Template))
      = false := by
  have hsplit : key ++ "_mirror.pem" = (key ++ "_mirror") ++ ".pem" := by
    rw [string_append_assoc]
    rfl
  show isBackendConfFile
    (ETC_CINDER_D_CONF_DIR ++ "/" ++ removeJ2Suffix (key ++ "_mirror.pem")) = false
  rw [hsplit, removeJ2_append_pem]
  exact isBackendConfFile_backendPemPath (key ++ "_mirror")

/-- Of each backend's template set, exactly the `<backend_name>.conf`
fragment lies in the cleanup's `*.conf` glob region. -/
theorem templateFilesOf_filter (b : Backend) :
    (templateFilesOf b).filter (fun t => isBackendConfFile (relPath t))
      = [backendConfTemplate b.key] := by
  unfold templateFilesOf
  cases b.kind with
  | ceph =>
    simp [List.filter_cons, isBCF_frag_template, isBCF_pem_template,
      isBCF_ceph_conf_template, isBCF_ceph_keyring_template]
  | lvm =>
    simp [List.filter_cons, isBCF_frag_template, isBCF_pem_template]
  | hitachi =>
    simp [List.filter_cons, isBCF_frag_template, isBCF_pem_template,
      isBCF_hitachi_mirror_template]
  | pureK =>
    simp [List.filter_cons, isBCF_frag_template, isBCF_pem_template]
  | dellsc =>
    simp [List.filter_cons, isBCF_frag_template, isBCF_pem_template]
  | dellpowerstore =>
    simp [List.filter_cons, isBCF_frag_template, isBCF_pem_template]

theorem global_not_bcf :
    ∀ t ∈ globalTemplateFiles, isBackendConfFile (relPath t) = false := by
  intro t ht
  unfold globalTemplateFiles at ht
  rcases List.mem_cons.mp ht with h1 | h2
  · subst h1
    decide
  · rcases List.mem_cons.mp h2 with h3 | h4
    · subst h3
      decide
    · cases h4

/-- All destination paths of one run, in processing order. -/
def allDestPaths (backends : List Backend) : List String :=
  globalTemplateFiles.map relPath
    ++ backends.flatMap (fun b => (templateFilesOf b).map relPath)

theorem renderJobs_map_dest (ctx1 : Ctx) (backends : List Backend) :
    (renderJobs ctx1 backends).map jobDest = allDestPaths backends := by
  unfold renderJobs allDestPaths
  rw [List.map_append, List.map_map]
  congr 1
  rw [List.map_flatMap]
  congr 1
  funext b
  rw [List.map_map]
  rfl

theorem globalJobs_filter (ctx1 : Ctx) :
    (globalTemplateFiles.map (fun t => ((ctx1 : Ctx), t))).filter
      (fun j => isBackendConfFile (jobDest j)) = [] := by
  have h1 : isBackendConfFile (relPath
      (⟨"cinder.conf", "etc/cinder", 420, none, []⟩ : Template)) = false := by decide
  have h2 : isBackendConfFile (relPath
      (⟨"rootwrap.conf", "etc/cinder", 420, none, []⟩ : Template)) = false := by decide
  unfold globalTemplateFiles
  simp only [List.map_cons, List.map_nil, List.filter_cons]
  show (if isBackendConfFile (relPath
      (⟨"cinder.conf", "etc/cinder", 420, none, []⟩ : Template)) = true then _ else _) = _
  rw [h1]
  simp only [Bool.false_eq_true, if_false]
  show (if isBackendConfFile (relPath
      (⟨"rootwrap.conf", "etc/cinder", 420, none, []⟩ : Template)) = true then _ else _) = _
  rw [h2]
  simp

theorem backendJobs_filter (ctx1 : Ctx) (backends : List Backend) :
    ((backends.flatMap (fun b => (templateFilesOf b).map
        (fun t => (backendPassCtx ctx1 b, t)))).filter
      (fun j => isBackendConfFile (jobDest j))).map Prod.snd
    = backends.map (fun b => backendConfTemplate b.key) := by
  induction backends with
  | nil => rfl
  | cons b rest ih =>
    rw [List.flatMap_cons, List.filter_append, List.map_append, ih]
    have hcomp : (List.filter (fun j => isBackendConfFile (jobDest j))
          ((templateFilesOf b).map (fun t => (backendPassCtx ctx1 b, t))))
        = ((templateFilesOf b).filter (fun t => isBackendConfFile (relPath t))).map
            (fun t => (backendPassCtx ctx1 b, t)) := by
      rw [List.filter_map]
      rfl
    rw [hcomp, templateFilesOf_filter]
    rfl

theorem renderJobs_filter (ctx1 : Ctx) (backends : List Backend) :
    ((renderJobs ctx1 backends).filter
        (fun j => isBackendConfFile (jobDest j))).map Prod.snd
      = backends.map (fun b => backendConfTemplate b.key) := by
  unfold renderJobs
  rw [List.filter_append, globalJobs_filter, List.nil_append]
  exact backendJobs_filter ctx1 backends

/-- Every render pass whose destination lies in the cleanup region has no
conditionals (it is a backend `.conf` fragment). -/
theorem renderJobs_cleared_conds (ctx1 : Ctx) (backends : List Backend) :
    ∀ j ∈ renderJobs ctx1 backends, isBackendConfFile (jobDest j) = true →
      j.2.conditionals = [] := by
  intro j hj hb
  unfold renderJobs at hj
  rcases List.mem_append.mp hj with hg | hbk
  · obtain ⟨t, ht, rfl⟩ := List.mem_map.mp hg
    have := global_not_bcf t ht
    rw [show jobDest (ctx1, t) = relPath t from rfl, this] at hb
    cases hb
  · obtain ⟨b, hbmem, hj2⟩ := List.mem_flatMap.mp hbk
    obtain ⟨t, ht, rfl⟩ := List.mem_map.mp hj2
    have hmem : t ∈ (templateFilesOf b).filter
        (fun t => isBackendConfFile (relPath t)) :=
      List.mem_filter.mpr ⟨ht, hb⟩
    rw [templateFilesOf_filter] at hmem
    have : t = backendConfTemplate b.key := List.mem_singleton.mp hmem
    subst this
    rfl

/-- C1 counterexample: running `configure` twice on the same single-backend
document from an empty destination is *not* idempotent in the claimed sense —
the pre-pass deletes the backend's `.conf` fragment, so the second run
re-writes it and reports it modified; the second-run modified set is
`[a.conf]`, not empty (file contents are nonetheless identical). -/
theorem claim_C1_counterexample :
    configure (fun _ _ => "x\n") (fun s _ => .ok s) (.ok [])
        (.ok [⟨"a", BKind.pureK, [("volume_backend_name", Val.str "pa")]⟩]) []
      = .ok ([("etc/cinder/cinder.conf", "x\n"),
              ("etc/cinder/rootwrap.conf", "x\n"),
              ("etc/cinder/cinder.conf.d/a.conf", "x\n")],
          [⟨"cinder.conf", "etc/cinder", 420, none, []⟩,
           ⟨"rootwrap.conf", "etc/cinder", 420, none, []⟩,
           backendConfTemplate "a"]) ∧
      configure (fun _ _ => "x\n") (fun s _ => .ok s) (.ok [])
          (.ok [⟨"a", BKind.pureK, [("volume_backend_name", Val.str "pa")]⟩])
          [("etc/cinder/cinder.conf", "x\n"),
           ("etc/cinder/rootwrap.conf", "x\n"),
           ("etc/cinder/cinder.conf.d/a.conf", "x\n")]
        = .ok ([("etc/cinder/cinder.conf", "x\n"),
                ("etc/cinder/rootwrap.conf", "x\n"),
                ("etc/cinder/cinder.conf.d/a.conf", "x\n")],
            [backendConfTemplate "a"]) ∧
      [backendConfTemplate "a"].map relPath = ["etc/cinder/cinder.conf.d/a.conf"] :=
  ⟨rfl, rfl, rfl⟩

/-- C1 (amended): when the same document is configured twice against the same
destination (pairwise-distinct template destinations), every destination
file's content is byte-identical after the first and after the second run,
but the second run's modified set is not empty — it is exactly the per-backend
`<backend_name>.conf` fragment paths, which the pre-pass deletes and the
render re-writes; all other destinations are unmodified. -/
theorem claim_C1 (render : String → Ctx → String)
    (ev : String → Ctx → Except String String) (ctx0 : Ctx)
    (backends : List Backend) (fs0 fs1 fs2 : FS) (m1 m2 : List Template)
    (hnd : (allDestPaths backends).Nodup)
    (h1 : configure render ev (.ok ctx0) (.ok backends) fs0 = .ok (fs1, m1))
    (h2 : configure render ev (.ok ctx0) (.ok backends) fs1 = .ok (fs2, m2)) :
    (∀ p, lookupA fs2 p = lookupA fs1 p) ∧
      m2.map relPath = backends.map (fun b => fragPath b.key) := by
  cases hagg : renderSpecific ev ctx0 (Val.dict (aggregateContext backends)) with
  | error e =>
    exfalso
    have hrun : configure render ev (.ok ctx0) (.ok backends) fs0 = .error e := by
      show (match renderSpecific ev ctx0 (Val.dict (aggregateContext backends)) with
        | Except.error e => Except.error e
        | Except.ok agg =>
          Except.ok (processJobs render
            (renderJobs (upsert ctx0 "cinder_backends" agg) backends)
            (clearBackendConfigs fs0)))
        = Except.error e
      rw [hagg]
    rw [hrun] at h1
    cases h1
  | ok agg =>
    have hrun : ∀ fs : FS, configure render ev (.ok ctx0) (.ok backends) fs
        = .ok (processJobs render
            (renderJobs (upsert ctx0 "cinder_backends" agg) backends)
            (clearBackendConfigs fs)) := by
      intro fs
      show (match renderSpecific ev ctx0 (Val.dict (aggregateContext backends)) with
        | Except.error e => Except.error e
        | Except.ok agg =>
          Except.ok (processJobs render
            (renderJobs (upsert ctx0 "cinder_backends" agg) backends)
            (clearBackendConfigs fs)))
        = _
      rw [hagg]
    rw [hrun fs0] at h1
    rw [hrun fs1] at h2
    injection h1 with h1'
    injection h2 with h2'
    have hfs1 : (processJobs render
        (renderJobs (upsert ctx0 "cinder_backends" agg) backends)
        (clearBackendConfigs fs0)).1 = fs1 := congrArg Prod.fst h1'
    have hfs2 : (processJobs render
        (renderJobs (upsert ctx0 "cinder_backends" agg) backends)
        (clearBackendConfigs fs1)).1 = fs2 := congrArg Prod.fst h2'
    have hm2 : (processJobs render
        (renderJobs (upsert ctx0 "cinder_backends" agg) backends)
        (clearBackendConfigs fs1)).2 = m2 := congrArg Prod.snd h2'
    have hjnd : ((renderJobs (upsert ctx0 "cinder_backends" agg) backends).map
        jobDest).Nodup := by
      rw [renderJobs_map_dest]
      exact hnd
    have F1 : ∀ j ∈ renderJobs (upsert ctx0 "cinder_backends" agg) backends,
        lookupA fs1 (jobDest j) = expectedContent render j := by
      intro j hj
      rw [← hfs1]
      exact processJobs_lookup_mem render _ _ j hj hjnd
    have F1not : ∀ q, (∀ j ∈ renderJobs (upsert ctx0 "cinder_backends" agg) backends,
        q ≠ jobDest j) → lookupA fs1 q = lookupA (clearBackendConfigs fs0) q := by
      intro q hq
      rw [← hfs1]
      exact processJobs_lookup_not_mem render _ _ q hq
    have H2 : ∀ j ∈ renderJobs (upsert ctx0 "cinder_backends" agg) backends,
        if isBackendConfFile (jobDest j) then
          (lookupA (clearBackendConfigs fs1) (jobDest j) = none
            ∧ j.2.conditionals = [])
        else lookupA (clearBackendConfigs fs1) (jobDest j)
          = expectedContent render j := by
      intro j hj
      by_cases hb : isBackendConfFile (jobDest j) = true
      · rw [if_pos hb]
        refine ⟨?_, renderJobs_cleared_conds _ _ j hj hb⟩
        rw [lookupA_clearBackendConfigs]
        simp [hb]
      · rw [if_neg hb]
        have hb' : isBackendConfFile (jobDest j) = false := by simpa using hb
        rw [lookupA_clearBackendConfigs]
        simp only [hb', Bool.false_eq_true, if_false]
        exact F1 j hj
    constructor
    · intro p
      by_cases hp : ∃ j, j ∈ renderJobs (upsert ctx0 "cinder_backends" agg) backends
          ∧ jobDest j = p
      · obtain ⟨j, hj, hjp⟩ := hp
        subst hjp
        rw [← hfs2]
        rw [processJobs_lookup_mem render _ _ j hj hjnd]
        exact (F1 j hj).symm
      · have hnp : ∀ j ∈ renderJobs (upsert ctx0 "cinder_backends" agg) backends,
            p ≠ jobDest j := by
          intro j hj heq
          exact hp ⟨j, hj, heq.symm⟩
        have hfs1p := F1not p hnp
        rw [lookupA_clearBackendConfigs] at hfs1p
        rw [← hfs2, processJobs_lookup_not_mem render _ _ p hnp,
          lookupA_clearBackendConfigs]
        by_cases hb : isBackendConfFile p = true
        · simp only [hb, if_true]
          simp only [hb, if_true] at hfs1p
          exact hfs1p.symm
        · have hb' : isBackendConfFile p = false := by simpa using hb
          simp only [hb', Bool.false_eq_true, if_false]
    · rw [← hm2]
      rw [processJobs_modified render _ _ hjnd H2]
      rw [renderJobs_filter]
      rw [List.map_map]
      congr 1
      funext b
      show relPath (backendConfTemplate b.key) = fragPath b.key
      exact relPath_backendConf b.key

/-- C1 witness. -/
theorem claim_C1_witness :
    (∀ p, lookupA [("etc/cinder/cinder.conf", "x\n"),
        ("etc/cinder/rootwrap.conf", "x\n"),
        ("etc/cinder/cinder.conf.d/a.conf", "x\n")] p
      = lookupA [("etc/cinder/cinder.conf", "x\n"),
        ("etc/cinder/rootwrap.conf", "x\n"),
        ("etc/cinder/cinder.conf.d/a.conf", "x\n")] p) ∧
      [backendConfTemplate "a"].map relPath
        = [(⟨"a", BKind.pureK, [("volume_backend_name", Val.str "pa")]⟩
            : Backend)].map (fun b => fragPath b.key) :=
  claim_C1 (fun _ _ => "x\n") (fun s _ => .ok s) []
    [⟨"a", BKind.pureK, [("volume_backend_name", Val.str "pa")]⟩]
    [] _ _ _ _ (by decide) rfl rfl

end CinderVolume
